import Mathlib

/-!
# PortAdapter: transaction queues between a test driver and a polling simulation

Shallow embedding of `port_adapter.h` / `port_adapter.cpp` (the adapter),
of the functions of `dpi_bridge.cpp`, and of the helpers and `main` of
`test.cpp` (without printing, with `rand()` as a parameter).

Modelling decisions.

* `uint16_t` fields are `Fin 65536`; `int` is `Int` (the adapter only stores
  and returns the count, it never computes with it).
* `std::vector<DpiTxn>` is `List DpiTxn`; `empty()` is `List.isEmpty`,
  `push_back` appends at the end, `front()` and `erase(begin())` are partial
  (`Option`), as they are undefined on an empty vector.
* A `DpiTxn*` handed to a poll is a `Slot`: the identity of a caller-owned
  `DpiTxn` object. Caller memory is `Mem : Slot → DpiTxn`. The pointer fields
  `pending_read` / `pending_write` are `Option Slot`, `none` being `nullptr`.
* Every member function takes the adapter state (and, when it writes through
  a pointer, the memory) and returns the new state next to its C++ result.
  A result `none` stands for undefined behaviour of the C++ code.
-/

/-! ## Data model (`port_adapter.h`) -/

/-- Transaction record `struct DpiTxn`: 16-bit data, 16-bit address, port bit. -/
structure DpiTxn where
  data : Fin 65536
  address : Fin 65536
  portid : Bool
deriving DecidableEq, Repr

/-- Identity of a caller-owned `DpiTxn` object, the target of a `DpiTxn*`. -/
abbrev Slot := Nat

/-- Caller memory: the contents of every output slot. -/
abbrev Mem := Slot → DpiTxn

/-- Assignment through a pointer, `*p = v`. -/
def Mem.write (mem : Mem) (p : Slot) (v : DpiTxn) : Mem :=
  fun q => if q = p then v else mem q

/-- Fields of `class PortAdapter`, in declaration order. -/
structure PortAdapter where
  pending_read : Option Slot
  pending_write : Option Slot
  read_queue : List DpiTxn
  write_queue : List DpiTxn
  expected_txn_count : Int

/-- Member `std::vector::front()`: the first element, undefined when empty. -/
def front (q : List DpiTxn) : Option DpiTxn :=
  match q with
  | [] => none
  | x :: _ => some x

/-- Call `v.erase(v.begin())`: drops the first element, undefined when empty. -/
def erase_begin (q : List DpiTxn) : Option (List DpiTxn) :=
  match q with
  | [] => none
  | _ :: rest => some rest

/-- Member `std::vector::push_back`. -/
def push_back (q : List DpiTxn) (txn : DpiTxn) : List DpiTxn :=
  q ++ [txn]

/-! ## Member functions (`port_adapter.cpp`) -/

/-- Constructor `PortAdapter::PortAdapter()`: null handles, empty queues, count 0. -/
def PortAdapter.ctor : PortAdapter :=
  { pending_read := none
    pending_write := none
    read_queue := []
    write_queue := []
    expected_txn_count := 0 }

/-- Accessor `PortAdapter::get_pending_read()`. -/
def PortAdapter.get_pending_read (self : PortAdapter) : Option Slot :=
  self.pending_read

/-- Accessor `PortAdapter::get_pending_write()`. -/
def PortAdapter.get_pending_write (self : PortAdapter) : Option Slot :=
  self.pending_write

/-- Poll `PortAdapter::read_adapter(DpiTxn* txn)`. -/
def PortAdapter.read_adapter (self : PortAdapter) (mem : Mem) (txn : Slot) :
    Option (Bool × PortAdapter × Mem) :=
  if self.read_queue.isEmpty then
    some (false, self, mem)
  else
    match front self.read_queue with
    | none => none
    | some v =>
      let mem1 := mem.write txn v
      match erase_begin self.read_queue with
      | none => none
      | some rest =>
        some (true, { self with read_queue := rest, pending_read := some txn }, mem1)

/-- Poll `PortAdapter::write_adapter(DpiTxn* txn)`. -/
def PortAdapter.write_adapter (self : PortAdapter) (mem : Mem) (txn : Slot) :
    Option (Bool × PortAdapter × Mem) :=
  if self.write_queue.isEmpty then
    some (false, self, mem)
  else
    match front self.write_queue with
    | none => none
    | some v =>
      let mem1 := mem.write txn v
      match erase_begin self.write_queue with
      | none => none
      | some rest =>
        some (true, { self with write_queue := rest, pending_write := some txn }, mem1)

/-- Enqueue `PortAdapter::queue_read(const DpiTxn& txn)`. -/
def PortAdapter.queue_read (self : PortAdapter) (txn : DpiTxn) : PortAdapter :=
  { self with read_queue := push_back self.read_queue txn }

/-- Enqueue `PortAdapter::queue_write(const DpiTxn& txn)`. -/
def PortAdapter.queue_write (self : PortAdapter) (txn : DpiTxn) : PortAdapter :=
  { self with write_queue := push_back self.write_queue txn }

/-- Setter `PortAdapter::set_expected_txn_count(int count)`. -/
def PortAdapter.set_expected_txn_count (self : PortAdapter) (count : Int) : PortAdapter :=
  { self with expected_txn_count := count }

/-- Getter `PortAdapter::get_expected_txn_count()`. -/
def PortAdapter.get_expected_txn_count (self : PortAdapter) : Int :=
  self.expected_txn_count

/-! ## Entry points of `dpi_bridge.cpp`

The global `g_port_adapter` is passed explicitly. -/

/-- Bridge function `maybe_read`: `g_port_adapter.read_adapter(txn) ? 1 : 0`. -/
def maybe_read (g : PortAdapter) (mem : Mem) (txn : Slot) : Option (Int × PortAdapter × Mem) :=
  match g.read_adapter mem txn with
  | none => none
  | some (b, g1, mem1) => some (if b then 1 else 0, g1, mem1)

/-- Bridge function `maybe_write`: `g_port_adapter.write_adapter(txn) ? 1 : 0`. -/
def maybe_write (g : PortAdapter) (mem : Mem) (txn : Slot) : Option (Int × PortAdapter × Mem) :=
  match g.write_adapter mem txn with
  | none => none
  | some (b, g1, mem1) => some (if b then 1 else 0, g1, mem1)

/-! ## Drain loops of `test.cpp`

`while (maybe_write(&retrieved_txn)) writes_retrieved++;` and the same loop on
`maybe_read`. The loops are run with a bound on the number of calls: `none`
means the bound was reached (or the call was undefined) before the loop
left. The counter is the number of iterations of the body. -/

/-- Loop `while (maybe_write(&retrieved_txn)) { writes_retrieved++; }`. -/
def drain_writes (fuel : Nat) (g : PortAdapter) (mem : Mem) (retrieved_txn : Slot)
    (writes_retrieved : Nat) : Option (Nat × PortAdapter × Mem) :=
  match fuel with
  | 0 => none
  | fuel1 + 1 =>
    match maybe_write g mem retrieved_txn with
    | none => none
    | some (r, g1, mem1) =>
      if r ≠ 0 then drain_writes fuel1 g1 mem1 retrieved_txn (writes_retrieved + 1)
      else some (writes_retrieved, g1, mem1)

/-- Loop `while (maybe_read(&retrieved_txn)) { reads_retrieved++; }`. -/
def drain_reads (fuel : Nat) (g : PortAdapter) (mem : Mem) (retrieved_txn : Slot)
    (reads_retrieved : Nat) : Option (Nat × PortAdapter × Mem) :=
  match fuel with
  | 0 => none
  | fuel1 + 1 =>
    match maybe_read g mem retrieved_txn with
    | none => none
    | some (r, g1, mem1) =>
      if r ≠ 0 then drain_reads fuel1 g1 mem1 retrieved_txn (reads_retrieved + 1)
      else some (reads_retrieved, g1, mem1)

/-- Both drain loops in the order of `main`: writes first, then reads, into the
same `retrieved_txn`. Returns `(writes_retrieved, reads_retrieved, adapter, memory)`. -/
def drain (fuel : Nat) (g : PortAdapter) (mem : Mem) (retrieved_txn : Slot) :
    Option (Nat × Nat × PortAdapter × Mem) :=
  match drain_writes fuel g mem retrieved_txn 0 with
  | none => none
  | some (w, g1, mem1) =>
    match drain_reads fuel g1 mem1 retrieved_txn 0 with
    | none => none
    | some (r, g2, mem2) => some (w, r, g2, mem2)

/-! ## Operation sequences

A client of the adapter is a finite sequence of calls of its public member
functions. Running a sequence threads the adapter and the caller memory
through the calls and records, per call, what the caller observes. -/

/-- One call of a public member function, with its arguments. -/
inductive Op where
  | queue_read (txn : DpiTxn)
  | queue_write (txn : DpiTxn)
  | read_adapter (txn : Slot)
  | write_adapter (txn : Slot)
  | set_expected_txn_count (count : Int)
  | get_expected_txn_count
  | get_pending_read
  | get_pending_write
deriving DecidableEq, Repr

/-- Value returned by a call. -/
inductive Ret where
  | unit
  | bool (b : Bool)
  | int (n : Int)
  | ptr (p : Option Slot)
deriving DecidableEq, Repr

/-- What the caller observes of one call: the call, its return value and, for a
poll, the contents of the supplied output slot when the call returns. -/
structure Event where
  op : Op
  ret : Ret
  out : Option DpiTxn
deriving DecidableEq, Repr

/-- Adapter state together with the caller memory. -/
structure Sys where
  adapter : PortAdapter
  mem : Mem

/-- Effect of one call. -/
def step (op : Op) (s : Sys) : Option (Sys × Event) :=
  match op with
  | .queue_read t =>
    some ({ s with adapter := s.adapter.queue_read t }, ⟨op, .unit, none⟩)
  | .queue_write t =>
    some ({ s with adapter := s.adapter.queue_write t }, ⟨op, .unit, none⟩)
  | .read_adapter p =>
    match s.adapter.read_adapter s.mem p with
    | none => none
    | some (b, a1, mem1) => some (⟨a1, mem1⟩, ⟨op, .bool b, some (mem1 p)⟩)
  | .write_adapter p =>
    match s.adapter.write_adapter s.mem p with
    | none => none
    | some (b, a1, mem1) => some (⟨a1, mem1⟩, ⟨op, .bool b, some (mem1 p)⟩)
  | .set_expected_txn_count n =>
    some ({ s with adapter := s.adapter.set_expected_txn_count n }, ⟨op, .unit, none⟩)
  | .get_expected_txn_count =>
    some (s, ⟨op, .int s.adapter.get_expected_txn_count, none⟩)
  | .get_pending_read =>
    some (s, ⟨op, .ptr s.adapter.get_pending_read, none⟩)
  | .get_pending_write =>
    some (s, ⟨op, .ptr s.adapter.get_pending_write, none⟩)

/-- Effect of a sequence of calls: the final state and the observations in call order. -/
def run (ops : List Op) (s : Sys) : Option (Sys × List Event) :=
  match ops with
  | [] => some (s, [])
  | op :: rest =>
    match step op s with
    | none => none
    | some (s1, e) =>
      match run rest s1 with
      | none => none
      | some (s2, es) => some (s2, e :: es)

/-- A freshly constructed adapter next to some caller memory. -/
def fresh (mem : Mem) : Sys := ⟨PortAdapter.ctor, mem⟩

/-- Return value of a call together with the transaction it delivered, if it
returned `true`. -/
def Event.outcome (e : Event) : Ret × Option DpiTxn :=
  (e.ret, if e.ret = Ret.bool true then e.out else none)

/-- Transaction delivered by a successful read poll; `none` for any other event. -/
def Event.readDelivered (e : Event) : Option DpiTxn :=
  match e.op, e.ret with
  | .read_adapter _, .bool true => e.out
  | _, _ => none

/-- Transaction delivered by a successful write poll; `none` for any other event. -/
def Event.writeDelivered (e : Event) : Option DpiTxn :=
  match e.op, e.ret with
  | .write_adapter _, .bool true => e.out
  | _, _ => none

/-- Transaction passed to `queue_read`; `none` for any other call. -/
def Op.readEnqueued (op : Op) : Option DpiTxn :=
  match op with
  | .queue_read t => some t
  | _ => none

/-- Transaction passed to `queue_write`; `none` for any other call. -/
def Op.writeEnqueued (op : Op) : Option DpiTxn :=
  match op with
  | .queue_write t => some t
  | _ => none

/-- Expected outcome of the `i`-th poll of a queue `Q` that is only polled:
`true` with `Q[i]` while `i < |Q|`, `false` afterwards. -/
def pollOutcome (Q : List DpiTxn) (i : Nat) : Ret × Option DpiTxn :=
  (Ret.bool (Q.get? i).isSome, Q.get? i)

/-- Transactions delivered by the successful read polls of a run, in call order. -/
def deliveredReads (evs : List Event) : List DpiTxn :=
  evs.filterMap Event.readDelivered

/-- Transactions delivered by the successful write polls of a run, in call order. -/
def deliveredWrites (evs : List Event) : List DpiTxn :=
  evs.filterMap Event.writeDelivered

/-- Transactions passed to `queue_read` in a call sequence, in call order. -/
def enqueuedReads (ops : List Op) : List DpiTxn :=
  ops.filterMap Op.readEnqueued

/-- Transactions passed to `queue_write` in a call sequence, in call order. -/
def enqueuedWrites (ops : List Op) : List DpiTxn :=
  ops.filterMap Op.writeEnqueued

/-- Calls that belong to the read channel: `queue_read`, `read_adapter` and
`get_pending_read`. -/
def Op.isReadChannel (op : Op) : Bool :=
  match op with
  | .queue_read _ => true
  | .read_adapter _ => true
  | .get_pending_read => true
  | _ => false

/-- Outcome of a write poll; `none` for an event of any other call. -/
def Event.writePoll (e : Event) : Option (Ret × Option DpiTxn) :=
  match e.op with
  | .write_adapter _ => some e.outcome
  | _ => none

/-- Outcomes of the write polls of a run, in call order. -/
def writePollResults (evs : List Event) : List (Ret × Option DpiTxn) :=
  evs.filterMap Event.writePoll

/-- A call sequence with every read-channel call deleted. -/
def dropReadChannel (ops : List Op) : List Op :=
  ops.filter (fun op => !op.isReadChannel)

/-- Output slot supplied to a successful read poll; `none` for any other event. -/
def Event.readSlot (e : Event) : Option Slot :=
  match e.op, e.ret with
  | .read_adapter p, .bool true => some p
  | _, _ => none

/-- Output slot supplied to a successful write poll; `none` for any other event. -/
def Event.writeSlot (e : Event) : Option Slot :=
  match e.op, e.ret with
  | .write_adapter p, .bool true => some p
  | _, _ => none

/-- Output slot of the most recent successful read poll of a run; `none` when no
read poll has succeeded. -/
def lastReadSlot (evs : List Event) : Option Slot :=
  (evs.filterMap Event.readSlot).getLast?

/-- Output slot of the most recent successful write poll of a run; `none` when
no write poll has succeeded. -/
def lastWriteSlot (evs : List Event) : Option Slot :=
  (evs.filterMap Event.writeSlot).getLast?

/-! ## Remaining entry points of `dpi_bridge.cpp` -/

/-- Initial value of the global `static PortAdapter g_port_adapter`. -/
def g_port_adapter : PortAdapter := PortAdapter.ctor

/-- Bridge function `get_expected_txn_count`. -/
def get_expected_txn_count (g : PortAdapter) : Int :=
  g.get_expected_txn_count

/-- Bridge function `test_queue_read`. -/
def test_queue_read (g : PortAdapter) (txn : DpiTxn) : PortAdapter :=
  g.queue_read txn

/-- Bridge function `test_queue_write`. -/
def test_queue_write (g : PortAdapter) (txn : DpiTxn) : PortAdapter :=
  g.queue_write txn

/-- Bridge function `test_get_pending_read`. -/
def test_get_pending_read (g : PortAdapter) : Option Slot :=
  g.get_pending_read

/-- Bridge function `test_get_pending_write`. -/
def test_get_pending_write (g : PortAdapter) : Option Slot :=
  g.get_pending_write

/-- Bridge function `test_set_expected_txn_count`. -/
def test_set_expected_txn_count (g : PortAdapter) (count : Int) : PortAdapter :=
  g.set_expected_txn_count count

/-- One call of a function of `dpi_bridge.cpp`, with its arguments. -/
inductive BridgeCall where
  | maybe_read (txn : Slot)
  | maybe_write (txn : Slot)
  | get_expected_txn_count
  | test_queue_read (txn : DpiTxn)
  | test_queue_write (txn : DpiTxn)
  | test_get_pending_read
  | test_get_pending_write
  | test_set_expected_txn_count (count : Int)
deriving DecidableEq, Repr

/-- Effect of one bridge call on the global adapter and the caller memory. -/
def apply_bridge_call (c : BridgeCall) (g : PortAdapter) (mem : Mem) :
    Option (PortAdapter × Mem) :=
  match c with
  | .maybe_read txn =>
    match maybe_read g mem txn with
    | none => none
    | some (_, g1, mem1) => some (g1, mem1)
  | .maybe_write txn =>
    match maybe_write g mem txn with
    | none => none
    | some (_, g1, mem1) => some (g1, mem1)
  | .get_expected_txn_count => some (g, mem)
  | .test_queue_read txn => some (test_queue_read g txn, mem)
  | .test_queue_write txn => some (test_queue_write g txn, mem)
  | .test_get_pending_read => some (g, mem)
  | .test_get_pending_write => some (g, mem)
  | .test_set_expected_txn_count count => some (test_set_expected_txn_count g count, mem)

/-- Effect of a sequence of bridge calls. -/
def bridge_calls (cs : List BridgeCall) (g : PortAdapter) (mem : Mem) :
    Option (PortAdapter × Mem) :=
  match cs with
  | [] => some (g, mem)
  | c :: rest =>
    match apply_bridge_call c g mem with
    | none => none
    | some (g1, mem1) => bridge_calls rest g1 mem1

/-- Argument of a `test_set_expected_txn_count` call; `none` for any other call. -/
def BridgeCall.countSet (c : BridgeCall) : Option Int :=
  match c with
  | .test_set_expected_txn_count count => some count
  | _ => none

/-- Value last passed to `test_set_expected_txn_count` in a call sequence, 0 if
it was never called. -/
def lastSetCount (cs : List BridgeCall) : Int :=
  (cs.filterMap BridgeCall.countSet).getLast?.getD 0

/-! ## Test driver (`test.cpp`)

`rand()` is a parameter: `rand k` is the value returned by the `k`-th call
(counted from 0) after `srand`, a non-negative `int`. The helper functions
take the value their own `rand()` call returned. `%` on `int` is `Int.tmod`. -/

/-- Conversion `static_cast<uint16_t>` of an `int`. -/
def static_cast_uint16 (x : Int) : Fin 65536 :=
  Fin.ofNat (x % 65536).toNat

/-- Helper `random_uint16`, given the value `r` of its `rand()` call. -/
def random_uint16 (r : Int) : Fin 65536 :=
  static_cast_uint16 (r.tmod 65536)

/-- Helper `random_address`, given the value `r` of its `rand()` call. -/
def random_address (r : Int) : Fin 65536 :=
  static_cast_uint16 (r.tmod 0x8001)

/-- Helper `random_portid`, given the value `r` of its `rand()` call. -/
def random_portid (r : Int) : Bool :=
  decide (r.tmod 2 = 1)

/-- Locals of `main` that the enqueue loop changes, the global adapter, and the
number of `rand()` calls made so far. -/
structure EnqueueState where
  g : PortAdapter
  reads_queued : Int
  writes_queued : Int
  calls : Nat

/-- Body of the enqueue loop of `main`: four `rand()` calls, one enqueue, one
counter increment. -/
def enqueue_body (rand : Nat → Nat) (st : EnqueueState) : EnqueueState :=
  let is_write : Bool := decide (((rand st.calls : Nat) : Int).tmod 2 = 1)
  let txn : DpiTxn :=
    { data := random_uint16 (rand (st.calls + 1))
      address := random_address (rand (st.calls + 2))
      portid := random_portid (rand (st.calls + 3)) }
  if is_write then
    { g := test_queue_write st.g txn
      reads_queued := st.reads_queued
      writes_queued := st.writes_queued + 1
      calls := st.calls + 4 }
  else
    { g := test_queue_read st.g txn
      reads_queued := st.reads_queued + 1
      writes_queued := st.writes_queued
      calls := st.calls + 4 }

/-- Loop `for (int i = 0; i < num_operations; i++)` of `main`; the body changes
neither `i` nor `num_operations`, so it runs `iterations` times, where
`iterations` is `num_operations` (0 if that is negative). -/
def enqueue_loop (rand : Nat → Nat) (iterations : Nat) (st : EnqueueState) : EnqueueState :=
  match iterations with
  | 0 => st
  | n + 1 => enqueue_loop rand n (enqueue_body rand st)

/-- What `main` leaves behind: its return value, its counters and the global adapter. -/
structure MainResult where
  exit_code : Int
  num_operations : Int
  reads_queued : Int
  writes_queued : Int
  reads_retrieved : Int
  writes_retrieved : Int
  g : PortAdapter

/-- Function `main` of `test.cpp`, without its printing (the name `main` is
reserved). `fuel` bounds the number of calls of each drain loop; `none` means a
bound was reached. -/
def test_main (rand : Nat → Nat) (fuel : Nat) (mem : Mem) (retrieved_txn : Slot) :
    Option MainResult :=
  let num_operations : Int := ((rand 0 : Nat) : Int).tmod 50 + 1
  let g0 := test_set_expected_txn_count g_port_adapter num_operations
  let st := enqueue_loop rand num_operations.toNat ⟨g0, 0, 0, 1⟩
  match drain_writes fuel st.g mem retrieved_txn 0 with
  | none => none
  | some (writes_retrieved, g1, mem1) =>
    match drain_reads fuel g1 mem1 retrieved_txn 0 with
    | none => none
    | some (reads_retrieved, g2, _) =>
      let success : Bool :=
        (st.reads_queued == (reads_retrieved : Int)) &&
        (st.writes_queued == (writes_retrieved : Int))
      some
        { exit_code := if success then 0 else 1
          num_operations := num_operations
          reads_queued := st.reads_queued
          writes_queued := st.writes_queued
          reads_retrieved := reads_retrieved
          writes_retrieved := writes_retrieved
          g := g2 }

/-- Sample `rand()`: the `k`-th call returns `k / 4 + 7`. -/
def rand0 : Nat → Nat := fun k => k / 4 + 7

/-! ## Sample values used to instantiate the theorems -/

/-- Sample transaction: data 1 at address 0x10 on port 0. -/
def txnA : DpiTxn := ⟨1, 0x10, false⟩

/-- Sample transaction: data 2 at address 0x20 on port 1. -/
def txnB : DpiTxn := ⟨2, 0x20, true⟩

/-- Sample transaction: data 3 at address 0x9000 (above 0x8000) on port 1. -/
def txnC : DpiTxn := ⟨3, 0x9000, true⟩

/-- Sample memory: every slot holds the all-zero transaction. -/
def mem0 : Mem := fun _ => ⟨0, 0, false⟩

/-- Sample adapter with `[txnA, txnB]` in both queues. -/
def adapterAB : PortAdapter :=
  { pending_read := none
    pending_write := none
    read_queue := [txnA, txnB]
    write_queue := [txnA, txnB]
    expected_txn_count := 0 }

/-- Transaction read through the handle returned by `get_pending_read()`: the
contents of the slot it points to; `none` when the handle is null. -/
def pendingReadValue (s : Sys) : Option DpiTxn :=
  s.adapter.get_pending_read.map s.mem

/-- Transaction read through the handle returned by `get_pending_write()`: the
contents of the slot it points to; `none` when the handle is null. -/
def pendingWriteValue (s : Sys) : Option DpiTxn :=
  s.adapter.get_pending_write.map s.mem

/-- Transaction delivered by the most recent successful read poll of a run. -/
def lastReadDelivered (evs : List Event) : Option DpiTxn :=
  (deliveredReads evs).getLast?

/-- Transaction delivered by the most recent successful write poll of a run. -/
def lastWriteDelivered (evs : List Event) : Option DpiTxn :=
  (deliveredWrites evs).getLast?

/-- Calls of the drain phase of `main` on one queued write and one queued read:
both polls are given the same slot, as `main` gives `&retrieved_txn` to both. -/
def sharedSlotOps : List Op :=
  [Op.queue_write txnA, Op.queue_read txnB, Op.write_adapter 0, Op.read_adapter 0]

/-- The same calls with the two polls given different slots. -/
def separateSlotOps : List Op :=
  [Op.queue_write txnA, Op.queue_read txnB, Op.write_adapter 0, Op.read_adapter 1]

/-- State after `separateSlotOps` on a fresh adapter and `mem0`: both queues
empty, the write handle on slot 0 holding `txnA`, the read handle on slot 1
holding `txnB`. -/
def separateSlotFinal : Sys :=
  ⟨{ pending_read := some 1
     pending_write := some 0
     read_queue := []
     write_queue := []
     expected_txn_count := 0 },
   (mem0.write 0 txnA).write 1 txnB⟩

/-- Events of the two enqueues of `separateSlotOps`. -/
def separateSlotEnqueues : List Event :=
  [⟨Op.queue_write txnA, Ret.unit, none⟩, ⟨Op.queue_read txnB, Ret.unit, none⟩]

/-- Event of the write poll of `separateSlotOps`. -/
def separateSlotWritePoll : Event :=
  ⟨Op.write_adapter 0, Ret.bool true, some txnA⟩

/-- Event of the read poll of `separateSlotOps`. -/
def separateSlotReadPoll : Event :=
  ⟨Op.read_adapter 1, Ret.bool true, some txnB⟩

/-! ## Basic facts about single calls -/

theorem read_adapter_nil (a : PortAdapter) (mem : Mem) (p : Slot)
    (h : a.read_queue = []) : a.read_adapter mem p = some (false, a, mem) := by
  simp [PortAdapter.read_adapter, h]

theorem read_adapter_cons (a : PortAdapter) (mem : Mem) (p : Slot) (x : DpiTxn)
    (rest : List DpiTxn) (h : a.read_queue = x :: rest) :
    a.read_adapter mem p =
      some (true, { a with read_queue := rest, pending_read := some p }, mem.write p x) := by
  simp [PortAdapter.read_adapter, h, front, erase_begin]

theorem write_adapter_nil (a : PortAdapter) (mem : Mem) (p : Slot)
    (h : a.write_queue = []) : a.write_adapter mem p = some (false, a, mem) := by
  simp [PortAdapter.write_adapter, h]

theorem write_adapter_cons (a : PortAdapter) (mem : Mem) (p : Slot) (x : DpiTxn)
    (rest : List DpiTxn) (h : a.write_queue = x :: rest) :
    a.write_adapter mem p =
      some (true, { a with write_queue := rest, pending_write := some p }, mem.write p x) := by
  simp [PortAdapter.write_adapter, h, front, erase_begin]

theorem Mem.write_same (mem : Mem) (p : Slot) (v : DpiTxn) : (mem.write p v) p = v := by
  simp [Mem.write]

theorem Mem.write_other (mem : Mem) (p q : Slot) (v : DpiTxn) (h : q ≠ p) :
    (mem.write p v) q = mem q := by
  simp [Mem.write, h]

theorem step_read_nil (s : Sys) (p : Slot) (h : s.adapter.read_queue = []) :
    step (Op.read_adapter p) s = some (s, ⟨Op.read_adapter p, Ret.bool false, some (s.mem p)⟩) := by
  simp [step, read_adapter_nil _ _ _ h]

theorem step_read_cons (s : Sys) (p : Slot) (x : DpiTxn) (rest : List DpiTxn)
    (h : s.adapter.read_queue = x :: rest) :
    step (Op.read_adapter p) s =
      some (⟨{ s.adapter with read_queue := rest, pending_read := some p }, s.mem.write p x⟩,
            ⟨Op.read_adapter p, Ret.bool true, some x⟩) := by
  simp [step, read_adapter_cons _ _ _ x rest h, Mem.write]

theorem step_write_nil (s : Sys) (p : Slot) (h : s.adapter.write_queue = []) :
    step (Op.write_adapter p) s = some (s, ⟨Op.write_adapter p, Ret.bool false, some (s.mem p)⟩) := by
  simp [step, write_adapter_nil _ _ _ h]

theorem step_write_cons (s : Sys) (p : Slot) (x : DpiTxn) (rest : List DpiTxn)
    (h : s.adapter.write_queue = x :: rest) :
    step (Op.write_adapter p) s =
      some (⟨{ s.adapter with write_queue := rest, pending_write := some p }, s.mem.write p x⟩,
            ⟨Op.write_adapter p, Ret.bool true, some x⟩) := by
  simp [step, write_adapter_cons _ _ _ x rest h, Mem.write]

/-- No call is undefined: every call returns, in every state. -/
theorem step_total (op : Op) (s : Sys) : ∃ s1 e, step op s = some (s1, e) := by
  cases op with
  | read_adapter p =>
    cases h : s.adapter.read_queue with
    | nil => exact ⟨_, _, step_read_nil s p h⟩
    | cons x rest => exact ⟨_, _, step_read_cons s p x rest h⟩
  | write_adapter p =>
    cases h : s.adapter.write_queue with
    | nil => exact ⟨_, _, step_write_nil s p h⟩
    | cons x rest => exact ⟨_, _, step_write_cons s p x rest h⟩
  | _ => exact ⟨_, _, rfl⟩

theorem run_nil (s : Sys) : run [] s = some (s, []) := rfl

theorem run_cons (op : Op) (rest : List Op) (s s1 s2 : Sys) (e : Event) (es : List Event)
    (h1 : step op s = some (s1, e)) (h2 : run rest s1 = some (s2, es)) :
    run (op :: rest) s = some (s2, e :: es) := by
  simp [run, h1, h2]

theorem run_cons_inv (op : Op) (rest : List Op) (s s2 : Sys) (evs : List Event)
    (h : run (op :: rest) s = some (s2, evs)) :
    ∃ s1 e es, step op s = some (s1, e) ∧ run rest s1 = some (s2, es) ∧ evs = e :: es := by
  obtain ⟨s1, e, h1⟩ := step_total op s
  simp only [run, h1] at h
  cases h2 : run rest s1 with
  | none => simp [h2] at h
  | some r =>
    obtain ⟨s3, es⟩ := r
    simp only [h2, Option.some.injEq, Prod.mk.injEq] at h
    obtain ⟨rfl, rfl⟩ := h
    exact ⟨s1, e, es, h1, h2, rfl⟩

/-- Running a sequence of calls always returns. -/
theorem run_total (ops : List Op) (s : Sys) : ∃ s1 evs, run ops s = some (s1, evs) := by
  induction ops generalizing s with
  | nil => exact ⟨s, [], rfl⟩
  | cons op rest ih =>
    obtain ⟨s1, e, h1⟩ := step_total op s
    obtain ⟨s2, es, h2⟩ := ih s1
    exact ⟨s2, e :: es, run_cons op rest s s1 s2 e es h1 h2⟩

theorem run_append (ops1 ops2 : List Op) (s s1 s2 : Sys) (es1 es2 : List Event)
    (h1 : run ops1 s = some (s1, es1)) (h2 : run ops2 s1 = some (s2, es2)) :
    run (ops1 ++ ops2) s = some (s2, es1 ++ es2) := by
  induction ops1 generalizing s es1 with
  | nil =>
    simp only [run, Option.some.injEq, Prod.mk.injEq] at h1
    obtain ⟨rfl, rfl⟩ := h1
    simpa using h2
  | cons op rest ih =>
    obtain ⟨s3, e, es, h3, h4, rfl⟩ := run_cons_inv op rest s s1 es1 h1
    exact run_cons op (rest ++ ops2) s s3 s2 e (es ++ es2) h3 (ih s3 es h4)

theorem run_length (ops : List Op) (s s1 : Sys) (evs : List Event)
    (h : run ops s = some (s1, evs)) : evs.length = ops.length := by
  induction ops generalizing s evs with
  | nil =>
    simp only [run, Option.some.injEq, Prod.mk.injEq] at h
    simp [← h.2]
  | cons op rest ih =>
    obtain ⟨s3, e, es, _, h4, rfl⟩ := run_cons_inv op rest s s1 evs h
    simp [ih s3 es h4]

/-! ## Sequences of enqueues and of polls -/

theorem run_queue_reads (L : List DpiTxn) (s : Sys) :
    run (L.map Op.queue_read) s =
      some (⟨{ s.adapter with read_queue := s.adapter.read_queue ++ L }, s.mem⟩,
            L.map (fun t => ⟨Op.queue_read t, Ret.unit, none⟩)) := by
  induction L generalizing s with
  | nil => simp [run]
  | cons t rest ih =>
    have h1 : step (Op.queue_read t) s =
        some (⟨s.adapter.queue_read t, s.mem⟩, ⟨Op.queue_read t, Ret.unit, none⟩) := rfl
    have h2 := ih ⟨s.adapter.queue_read t, s.mem⟩
    have h3 := run_cons _ _ _ _ _ _ _ h1 h2
    simpa [PortAdapter.queue_read, push_back] using h3

theorem run_queue_writes (L : List DpiTxn) (s : Sys) :
    run (L.map Op.queue_write) s =
      some (⟨{ s.adapter with write_queue := s.adapter.write_queue ++ L }, s.mem⟩,
            L.map (fun t => ⟨Op.queue_write t, Ret.unit, none⟩)) := by
  induction L generalizing s with
  | nil => simp [run]
  | cons t rest ih =>
    have h1 : step (Op.queue_write t) s =
        some (⟨s.adapter.queue_write t, s.mem⟩, ⟨Op.queue_write t, Ret.unit, none⟩) := rfl
    have h2 := ih ⟨s.adapter.queue_write t, s.mem⟩
    have h3 := run_cons _ _ _ _ _ _ _ h1 h2
    simpa [PortAdapter.queue_write, push_back] using h3

theorem pollOutcome_nil (i : Nat) : pollOutcome [] i = (Ret.bool false, none) := by
  simp [pollOutcome]

theorem pollOutcome_cons_zero (x : DpiTxn) (rest : List DpiTxn) :
    pollOutcome (x :: rest) 0 = (Ret.bool true, some x) := by
  simp [pollOutcome]

theorem pollOutcome_cons_succ (x : DpiTxn) (rest : List DpiTxn) (i : Nat) :
    pollOutcome (x :: rest) (i + 1) = pollOutcome rest i := by
  simp [pollOutcome]

theorem map_range_succ {α : Type} (f : Nat → α) (n : Nat) :
    (List.range (n + 1)).map f = f 0 :: (List.range n).map (fun i => f (i + 1)) := by
  rw [List.range_succ_eq_map]
  simp [List.map_map, Function.comp_def]

theorem run_read_polls (slots : List Slot) (s : Sys) :
    ∃ s1 evs, run (slots.map Op.read_adapter) s = some (s1, evs) ∧
      evs.map Event.outcome =
        (List.range slots.length).map (pollOutcome s.adapter.read_queue) := by
  induction slots generalizing s with
  | nil => exact ⟨s, [], rfl, rfl⟩
  | cons p ps ih =>
    cases h : s.adapter.read_queue with
    | nil =>
      obtain ⟨s1, evs, h1, h2⟩ := ih s
      refine ⟨s1, _, run_cons _ _ _ _ _ _ _ (step_read_nil s p h) h1, ?_⟩
      have hnil : pollOutcome [] = fun _ => (Ret.bool false, none) := funext pollOutcome_nil
      rw [h, hnil] at h2
      rw [hnil]
      simp only [List.length_cons, map_range_succ, List.map_cons, h2]
      simp [Event.outcome]
    | cons x rest =>
      obtain ⟨s1, evs, h1, h2⟩ :=
        ih ⟨{ s.adapter with read_queue := rest, pending_read := some p }, s.mem.write p x⟩
      refine ⟨s1, _, run_cons _ _ _ _ _ _ _ (step_read_cons s p x rest h) h1, ?_⟩
      simp only [List.length_cons, map_range_succ, List.map_cons, h2, pollOutcome_cons_zero,
        pollOutcome_cons_succ]
      simp [Event.outcome]

theorem run_write_polls (slots : List Slot) (s : Sys) :
    ∃ s1 evs, run (slots.map Op.write_adapter) s = some (s1, evs) ∧
      evs.map Event.outcome =
        (List.range slots.length).map (pollOutcome s.adapter.write_queue) := by
  induction slots generalizing s with
  | nil => exact ⟨s, [], rfl, rfl⟩
  | cons p ps ih =>
    cases h : s.adapter.write_queue with
    | nil =>
      obtain ⟨s1, evs, h1, h2⟩ := ih s
      refine ⟨s1, _, run_cons _ _ _ _ _ _ _ (step_write_nil s p h) h1, ?_⟩
      have hnil : pollOutcome [] = fun _ => (Ret.bool false, none) := funext pollOutcome_nil
      rw [h, hnil] at h2
      rw [hnil]
      simp only [List.length_cons, map_range_succ, List.map_cons, h2]
      simp [Event.outcome]
    | cons x rest =>
      obtain ⟨s1, evs, h1, h2⟩ :=
        ih ⟨{ s.adapter with write_queue := rest, pending_write := some p }, s.mem.write p x⟩
      refine ⟨s1, _, run_cons _ _ _ _ _ _ _ (step_write_cons s p x rest h) h1, ?_⟩
      simp only [List.length_cons, map_range_succ, List.map_cons, h2, pollOutcome_cons_zero,
        pollOutcome_cons_succ]
      simp [Event.outcome]

/-! ## C1: FIFO order -/

/-- C1. FIFO order. On a freshly constructed adapter, enqueue the transactions
of any list `L` with `queue_read` and then poll `read_adapter` any number of
times (one poll per entry of `slots`, each with its own output slot). The run
returns, and the `i`-th poll returns `true` and leaves `L[i]` in its output slot
when `i < |L|`, and returns `false` when `i ≥ |L|`. The same holds for
`queue_write` followed by `write_adapter`. -/
theorem C1_fifo_order (L : List DpiTxn) (slots : List Slot) (mem : Mem) :
    (∃ s evs, run (L.map Op.queue_read ++ slots.map Op.read_adapter) (fresh mem) = some (s, evs) ∧
      (evs.drop L.length).map Event.outcome =
        (List.range slots.length).map (fun i => (Ret.bool (decide (i < L.length)), L.get? i))) ∧
    (∃ s evs, run (L.map Op.queue_write ++ slots.map Op.write_adapter) (fresh mem) = some (s, evs) ∧
      (evs.drop L.length).map Event.outcome =
        (List.range slots.length).map (fun i => (Ret.bool (decide (i < L.length)), L.get? i))) := by
  have key : ∀ i, pollOutcome L i = (Ret.bool (decide (i < L.length)), L.get? i) := by
    intro i
    simp only [pollOutcome, Prod.mk.injEq, and_true, Ret.bool.injEq]
    by_cases hi : i < L.length
    · simp [hi, List.get?_eq_get hi]
    · have hle : L.length ≤ i := Nat.le_of_not_lt hi
      simp [hi, hle]
  constructor
  · have h1 := run_queue_reads L (fresh mem)
    obtain ⟨s, evs, h2, h3⟩ := run_read_polls slots
      ⟨{ (fresh mem).adapter with read_queue := (fresh mem).adapter.read_queue ++ L }, mem⟩
    refine ⟨s, _, run_append _ _ _ _ _ _ _ h1 h2, ?_⟩
    have hq : (fresh mem).adapter.read_queue ++ L = L := by simp [fresh, PortAdapter.ctor]
    rw [hq] at h3
    simp [h3, key]
  · have h1 := run_queue_writes L (fresh mem)
    obtain ⟨s, evs, h2, h3⟩ := run_write_polls slots
      ⟨{ (fresh mem).adapter with write_queue := (fresh mem).adapter.write_queue ++ L }, mem⟩
    refine ⟨s, _, run_append _ _ _ _ _ _ _ h1 h2, ?_⟩
    have hq : (fresh mem).adapter.write_queue ++ L = L := by simp [fresh, PortAdapter.ctor]
    rw [hq] at h3
    simp [h3, key]

/-! ## C2, C3: one poll -/

/-- C2. Successful poll. When the read queue is `h :: T`, `read_adapter` with any
output slot returns `true`; afterwards the slot holds `h`, the read queue is
`T` and `get_pending_read` is the supplied slot. The same for `write_adapter`
on the write queue. -/
theorem C2_successful_poll (a : PortAdapter) (mem : Mem) (out : Slot) (h : DpiTxn)
    (T : List DpiTxn) :
    (a.read_queue = h :: T →
      ∃ a1 mem1, a.read_adapter mem out = some (true, a1, mem1) ∧
        mem1 out = h ∧ a1.read_queue = T ∧ a1.get_pending_read = some out) ∧
    (a.write_queue = h :: T →
      ∃ a1 mem1, a.write_adapter mem out = some (true, a1, mem1) ∧
        mem1 out = h ∧ a1.write_queue = T ∧ a1.get_pending_write = some out) := by
  constructor
  · intro hq
    exact ⟨_, _, read_adapter_cons a mem out h T hq, Mem.write_same mem out h, rfl, rfl⟩
  · intro hq
    exact ⟨_, _, write_adapter_cons a mem out h T hq, Mem.write_same mem out h, rfl, rfl⟩

theorem run_read_polls_empty (slots : List Slot) (s : Sys) (h : s.adapter.read_queue = []) :
    run (slots.map Op.read_adapter) s =
      some (s, slots.map (fun p => ⟨Op.read_adapter p, Ret.bool false, some (s.mem p)⟩)) := by
  induction slots with
  | nil => rfl
  | cons p ps ih => exact run_cons _ _ _ _ _ _ _ (step_read_nil s p h) ih

theorem run_write_polls_empty (slots : List Slot) (s : Sys) (h : s.adapter.write_queue = []) :
    run (slots.map Op.write_adapter) s =
      some (s, slots.map (fun p => ⟨Op.write_adapter p, Ret.bool false, some (s.mem p)⟩)) := by
  induction slots with
  | nil => rfl
  | cons p ps ih => exact run_cons _ _ _ _ _ _ _ (step_write_nil s p h) ih

/-- C3. Empty queue. When the read queue is empty, `read_adapter` returns
`false` and returns the adapter and the memory as they were (so the output
slot, both queues, both pending handles and the count are unchanged); any
number of polls in a row, with any output slots, all return `false`, each slot
still holding what it held, and leave adapter and memory as they were. The same
for `write_adapter` on an empty write queue. -/
theorem C3_empty_poll (a : PortAdapter) (mem : Mem) (out : Slot) (slots : List Slot) :
    (a.read_queue = [] →
      a.read_adapter mem out = some (false, a, mem) ∧
      run (slots.map Op.read_adapter) ⟨a, mem⟩ =
        some (⟨a, mem⟩, slots.map (fun p => ⟨Op.read_adapter p, Ret.bool false, some (mem p)⟩))) ∧
    (a.write_queue = [] →
      a.write_adapter mem out = some (false, a, mem) ∧
      run (slots.map Op.write_adapter) ⟨a, mem⟩ =
        some (⟨a, mem⟩, slots.map (fun p => ⟨Op.write_adapter p, Ret.bool false, some (mem p)⟩))) := by
  constructor
  · intro hq
    exact ⟨read_adapter_nil a mem out hq, run_read_polls_empty slots ⟨a, mem⟩ hq⟩
  · intro hq
    exact ⟨write_adapter_nil a mem out hq, run_write_polls_empty slots ⟨a, mem⟩ hq⟩

/-! ## C7, C10: count accessors and enqueue -/

/-- C7. Count round trip. For every adapter state and every integer `n` (so in
particular every 32-bit `int`, zero and negative values included),
`get_expected_txn_count` after `set_expected_txn_count n` returns `n`; the
setter changes no other field. -/
theorem C7_count_round_trip (a : PortAdapter) (n : Int) :
    (a.set_expected_txn_count n).get_expected_txn_count = n ∧
    a.set_expected_txn_count n = { a with expected_txn_count := n } := by
  exact ⟨rfl, rfl⟩

/-- C10. Enqueue appends at the tail. For every adapter state and every
transaction `t`, `queue_read t` turns the read queue `Q` into `Q ++ [t]`: the
length grows by one, every old position keeps its element, the new last
element is `t`, and no other field changes. The same for `queue_write` and the
write queue. -/
theorem C10_enqueue_appends (a : PortAdapter) (t : DpiTxn) :
    (a.queue_read t = { a with read_queue := a.read_queue ++ [t] } ∧
      (a.queue_read t).read_queue.length = a.read_queue.length + 1 ∧
      (∀ i, i < a.read_queue.length → (a.queue_read t).read_queue.get? i = a.read_queue.get? i) ∧
      (a.queue_read t).read_queue.get? a.read_queue.length = some t) ∧
    (a.queue_write t = { a with write_queue := a.write_queue ++ [t] } ∧
      (a.queue_write t).write_queue.length = a.write_queue.length + 1 ∧
      (∀ i, i < a.write_queue.length →
        (a.queue_write t).write_queue.get? i = a.write_queue.get? i) ∧
      (a.queue_write t).write_queue.get? a.write_queue.length = some t) := by
  refine ⟨⟨rfl, ?_, ?_, ?_⟩, ⟨rfl, ?_, ?_, ?_⟩⟩
  · simp [PortAdapter.queue_read, push_back]
  · intro i hi
    simp [PortAdapter.queue_read, push_back, List.getElem?_append_left hi]
  · simp [PortAdapter.queue_read, push_back]
  · simp [PortAdapter.queue_write, push_back]
  · intro i hi
    simp [PortAdapter.queue_write, push_back, List.getElem?_append_left hi]
  · simp [PortAdapter.queue_write, push_back]

/-! ## Instances of C2, C3 and C10 on sample values -/

theorem C2_successful_poll_witness :
    (∃ a1 mem1, adapterAB.read_adapter mem0 5 = some (true, a1, mem1) ∧
        mem1 5 = txnA ∧ a1.read_queue = [txnB] ∧ a1.get_pending_read = some 5) ∧
    (∃ a1 mem1, adapterAB.write_adapter mem0 5 = some (true, a1, mem1) ∧
        mem1 5 = txnA ∧ a1.write_queue = [txnB] ∧ a1.get_pending_write = some 5) :=
  ⟨(C2_successful_poll adapterAB mem0 5 txnA [txnB]).1 rfl,
   (C2_successful_poll adapterAB mem0 5 txnA [txnB]).2 rfl⟩

theorem C3_empty_poll_witness :
    (PortAdapter.ctor.read_adapter mem0 5 = some (false, PortAdapter.ctor, mem0) ∧
      run ([1, 2].map Op.read_adapter) ⟨PortAdapter.ctor, mem0⟩ =
        some (⟨PortAdapter.ctor, mem0⟩,
          [1, 2].map (fun p => ⟨Op.read_adapter p, Ret.bool false, some (mem0 p)⟩))) ∧
    (PortAdapter.ctor.write_adapter mem0 5 = some (false, PortAdapter.ctor, mem0) ∧
      run ([1, 2].map Op.write_adapter) ⟨PortAdapter.ctor, mem0⟩ =
        some (⟨PortAdapter.ctor, mem0⟩,
          [1, 2].map (fun p => ⟨Op.write_adapter p, Ret.bool false, some (mem0 p)⟩))) :=
  ⟨(C3_empty_poll PortAdapter.ctor mem0 5 [1, 2]).1 rfl,
   (C3_empty_poll PortAdapter.ctor mem0 5 [1, 2]).2 rfl⟩

theorem C10_enqueue_appends_witness :
    (adapterAB.queue_read txnC).read_queue.get? 1 = adapterAB.read_queue.get? 1 ∧
    (adapterAB.queue_write txnC).write_queue.get? 1 = adapterAB.write_queue.get? 1 :=
  ⟨(C10_enqueue_appends adapterAB txnC).1.2.2.1 1 (by decide),
   (C10_enqueue_appends adapterAB txnC).2.2.2.1 1 (by decide)⟩

/-! ## C4: conservation under arbitrary interleaving -/

theorem filterMap_cons_toList {α β : Type} (f : α → Option β) (x : α) (xs : List α) :
    (x :: xs).filterMap f = (f x).toList ++ xs.filterMap f := by
  cases h : f x <;> simp [List.filterMap_cons, h]

/-- One call keeps, on each channel, "delivered now, then still queued" equal to
"queued before, then enqueued now". -/
theorem step_conservation (op : Op) (s s1 : Sys) (e : Event) (h : step op s = some (s1, e)) :
    e.readDelivered.toList ++ s1.adapter.read_queue =
      s.adapter.read_queue ++ op.readEnqueued.toList ∧
    e.writeDelivered.toList ++ s1.adapter.write_queue =
      s.adapter.write_queue ++ op.writeEnqueued.toList := by
  cases op with
  | read_adapter p =>
    cases hq : s.adapter.read_queue with
    | nil =>
      rw [step_read_nil s p hq] at h
      simp only [Option.some.injEq, Prod.mk.injEq] at h
      obtain ⟨rfl, rfl⟩ := h
      simp [Event.readDelivered, Event.writeDelivered, Op.readEnqueued, Op.writeEnqueued, hq]
    | cons x rest =>
      rw [step_read_cons s p x rest hq] at h
      simp only [Option.some.injEq, Prod.mk.injEq] at h
      obtain ⟨rfl, rfl⟩ := h
      simp [Event.readDelivered, Event.writeDelivered, Op.readEnqueued, Op.writeEnqueued]
  | write_adapter p =>
    cases hq : s.adapter.write_queue with
    | nil =>
      rw [step_write_nil s p hq] at h
      simp only [Option.some.injEq, Prod.mk.injEq] at h
      obtain ⟨rfl, rfl⟩ := h
      simp [Event.readDelivered, Event.writeDelivered, Op.readEnqueued, Op.writeEnqueued, hq]
    | cons x rest =>
      rw [step_write_cons s p x rest hq] at h
      simp only [Option.some.injEq, Prod.mk.injEq] at h
      obtain ⟨rfl, rfl⟩ := h
      simp [Event.readDelivered, Event.writeDelivered, Op.readEnqueued, Op.writeEnqueued]
  | _ =>
    simp only [step, Option.some.injEq, Prod.mk.injEq] at h
    obtain ⟨rfl, rfl⟩ := h
    simp [Event.readDelivered, Event.writeDelivered, Op.readEnqueued, Op.writeEnqueued,
      PortAdapter.queue_read, PortAdapter.queue_write, PortAdapter.set_expected_txn_count,
      push_back]

theorem run_conservation (ops : List Op) (s s1 : Sys) (evs : List Event)
    (h : run ops s = some (s1, evs)) :
    deliveredReads evs ++ s1.adapter.read_queue = s.adapter.read_queue ++ enqueuedReads ops ∧
    deliveredWrites evs ++ s1.adapter.write_queue =
      s.adapter.write_queue ++ enqueuedWrites ops := by
  induction ops generalizing s evs with
  | nil =>
    simp only [run, Option.some.injEq, Prod.mk.injEq] at h
    obtain ⟨rfl, rfl⟩ := h
    simp [deliveredReads, deliveredWrites, enqueuedReads, enqueuedWrites]
  | cons op rest ih =>
    obtain ⟨s2, e, es, h1, h2, rfl⟩ := run_cons_inv op rest s s1 evs h
    obtain ⟨hr, hw⟩ := step_conservation op s s2 e h1
    obtain ⟨ihr, ihw⟩ := ih s2 es h2
    simp only [deliveredReads, deliveredWrites, enqueuedReads, enqueuedWrites,
      filterMap_cons_toList, List.append_assoc] at ihr ihw ⊢
    constructor
    · rw [ihr, ← List.append_assoc, hr, List.append_assoc]
    · rw [ihw, ← List.append_assoc, hw, List.append_assoc]

/-- C4. No fabrication, no duplication. Every finite sequence of calls (enqueues,
polls, count setter and getter, pending getters, in any order, polls with any
output slots) on a fresh adapter returns, and on each channel the transactions
delivered by the successful polls, followed by what is still queued, are
exactly the transactions enqueued on that channel, in enqueue order. Hence the
delivered transactions are a prefix of the enqueued ones (the N-th successful
poll delivers the N-th enqueued transaction) and the successful polls are never
more than the enqueues. -/
theorem C4_no_fabrication (ops : List Op) (mem : Mem) :
    ∃ s evs, run ops (fresh mem) = some (s, evs) ∧
      deliveredReads evs ++ s.adapter.read_queue = enqueuedReads ops ∧
      deliveredWrites evs ++ s.adapter.write_queue = enqueuedWrites ops ∧
      deliveredReads evs <+: enqueuedReads ops ∧
      deliveredWrites evs <+: enqueuedWrites ops ∧
      (deliveredReads evs).length ≤ (enqueuedReads ops).length ∧
      (deliveredWrites evs).length ≤ (enqueuedWrites ops).length := by
  obtain ⟨s, evs, h⟩ := run_total ops (fresh mem)
  obtain ⟨hr, hw⟩ := run_conservation ops (fresh mem) s evs h
  have hr1 : deliveredReads evs ++ s.adapter.read_queue = enqueuedReads ops := by
    simpa [fresh, PortAdapter.ctor] using hr
  have hw1 : deliveredWrites evs ++ s.adapter.write_queue = enqueuedWrites ops := by
    simpa [fresh, PortAdapter.ctor] using hw
  refine ⟨s, evs, h, hr1, hw1, ⟨_, hr1⟩, ⟨_, hw1⟩, ?_, ?_⟩
  · rw [← hr1, List.length_append]
    exact Nat.le_add_right _ _
  · rw [← hw1, List.length_append]
    exact Nat.le_add_right _ _

/-! ## C5: the drain loops -/

theorem maybe_write_nil (g : PortAdapter) (mem : Mem) (p : Slot) (h : g.write_queue = []) :
    maybe_write g mem p = some (0, g, mem) := by
  simp [maybe_write, write_adapter_nil g mem p h]

theorem maybe_write_cons (g : PortAdapter) (mem : Mem) (p : Slot) (x : DpiTxn)
    (rest : List DpiTxn) (h : g.write_queue = x :: rest) :
    maybe_write g mem p =
      some (1, { g with write_queue := rest, pending_write := some p }, mem.write p x) := by
  simp [maybe_write, write_adapter_cons g mem p x rest h]

theorem maybe_read_nil (g : PortAdapter) (mem : Mem) (p : Slot) (h : g.read_queue = []) :
    maybe_read g mem p = some (0, g, mem) := by
  simp [maybe_read, read_adapter_nil g mem p h]

theorem maybe_read_cons (g : PortAdapter) (mem : Mem) (p : Slot) (x : DpiTxn)
    (rest : List DpiTxn) (h : g.read_queue = x :: rest) :
    maybe_read g mem p =
      some (1, { g with read_queue := rest, pending_read := some p }, mem.write p x) := by
  simp [maybe_read, read_adapter_cons g mem p x rest h]

/-- The write loop leaves after exactly `|write_queue|` iterations of its body,
whenever the bound on the number of calls exceeds `|write_queue|`. -/
theorem drain_writes_spec (fuel : Nat) (g : PortAdapter) (mem : Mem) (p : Slot) (cnt : Nat)
    (h : g.write_queue.length < fuel) :
    ∃ g1 mem1, drain_writes fuel g mem p cnt = some (cnt + g.write_queue.length, g1, mem1) ∧
      g1.write_queue = [] ∧ g1.read_queue = g.read_queue := by
  induction fuel generalizing g mem cnt with
  | zero => exact absurd h (Nat.not_lt_zero _)
  | succ n ih =>
    cases hq : g.write_queue with
    | nil =>
      refine ⟨g, mem, ?_, hq, rfl⟩
      simp [drain_writes, maybe_write_nil g mem p hq]
    | cons x rest =>
      have hlt : rest.length < n := by
        rw [hq] at h
        simpa using h
      obtain ⟨g1, mem1, h1, h2, h3⟩ :=
        ih { g with write_queue := rest, pending_write := some p } (mem.write p x) (cnt + 1) hlt
      refine ⟨g1, mem1, ?_, h2, h3⟩
      simp only [drain_writes, maybe_write_cons g mem p x rest hq]
      simp only [ne_eq, one_ne_zero, not_false_eq_true, if_true, h1, List.length_cons]
      simp [Nat.add_assoc, Nat.add_comm 1]

/-- The read loop leaves after exactly `|read_queue|` iterations of its body,
whenever the bound on the number of calls exceeds `|read_queue|`. -/
theorem drain_reads_spec (fuel : Nat) (g : PortAdapter) (mem : Mem) (p : Slot) (cnt : Nat)
    (h : g.read_queue.length < fuel) :
    ∃ g1 mem1, drain_reads fuel g mem p cnt = some (cnt + g.read_queue.length, g1, mem1) ∧
      g1.read_queue = [] ∧ g1.write_queue = g.write_queue := by
  induction fuel generalizing g mem cnt with
  | zero => exact absurd h (Nat.not_lt_zero _)
  | succ n ih =>
    cases hq : g.read_queue with
    | nil =>
      refine ⟨g, mem, ?_, hq, rfl⟩
      simp [drain_reads, maybe_read_nil g mem p hq]
    | cons x rest =>
      have hlt : rest.length < n := by
        rw [hq] at h
        simpa using h
      obtain ⟨g1, mem1, h1, h2, h3⟩ :=
        ih { g with read_queue := rest, pending_read := some p } (mem.write p x) (cnt + 1) hlt
      refine ⟨g1, mem1, ?_, h2, h3⟩
      simp only [drain_reads, maybe_read_cons g mem p x rest hq]
      simp only [ne_eq, one_ne_zero, not_false_eq_true, if_true, h1, List.length_cons]
      simp [Nat.add_assoc, Nat.add_comm 1]

/-- C5. Drain terminates with exactly-once delivery. From every adapter state,
polling writes until the first `false` and then polling reads until the first
`false` (both into the same slot, as `main` does) leaves both loops as soon as
the bound on the number of calls per loop exceeds both queue lengths; the
write loop body then ran exactly `|write_queue|` times, the read loop body
exactly `|read_queue|` times, and both queues are empty afterwards. -/
theorem C5_drain_terminates (g : PortAdapter) (mem : Mem) (retrieved_txn : Slot) (fuel : Nat)
    (hw : g.write_queue.length < fuel) (hr : g.read_queue.length < fuel) :
    ∃ g2 mem2, drain fuel g mem retrieved_txn =
        some (g.write_queue.length, g.read_queue.length, g2, mem2) ∧
      g2.write_queue = [] ∧ g2.read_queue = [] := by
  obtain ⟨g1, mem1, h1, h2, h3⟩ := drain_writes_spec fuel g mem retrieved_txn 0 hw
  have hr1 : g1.read_queue.length < fuel := by rw [h3]; exact hr
  obtain ⟨g2, mem2, h4, h5, h6⟩ := drain_reads_spec fuel g1 mem1 retrieved_txn 0 hr1
  refine ⟨g2, mem2, ?_, by rw [h6, h2], h5⟩
  simp only [drain, h1, h4, h3]
  simp

theorem C5_drain_terminates_witness :
    ∃ g2 mem2, drain 3 adapterAB mem0 7 = some (2, 2, g2, mem2) ∧
      g2.write_queue = [] ∧ g2.read_queue = [] :=
  C5_drain_terminates adapterAB mem0 7 3 (by decide) (by decide)

/-! ## C6: channel independence -/

/-- A read-channel call changes neither the write queue nor the write pending
handle, and its event is not a write poll. -/
theorem step_read_channel_frame (op : Op) (s s1 : Sys) (e : Event)
    (hop : op.isReadChannel = true) (h : step op s = some (s1, e)) :
    s1.adapter.write_queue = s.adapter.write_queue ∧
    s1.adapter.pending_write = s.adapter.pending_write ∧ e.writePoll = none := by
  cases op with
  | queue_read t =>
    simp only [step, Option.some.injEq, Prod.mk.injEq] at h
    obtain ⟨rfl, rfl⟩ := h
    exact ⟨rfl, rfl, rfl⟩
  | read_adapter p =>
    cases hq : s.adapter.read_queue with
    | nil =>
      rw [step_read_nil s p hq] at h
      simp only [Option.some.injEq, Prod.mk.injEq] at h
      obtain ⟨rfl, rfl⟩ := h
      exact ⟨rfl, rfl, rfl⟩
    | cons x rest =>
      rw [step_read_cons s p x rest hq] at h
      simp only [Option.some.injEq, Prod.mk.injEq] at h
      obtain ⟨rfl, rfl⟩ := h
      exact ⟨rfl, rfl, rfl⟩
  | get_pending_read =>
    simp only [step, Option.some.injEq, Prod.mk.injEq] at h
    obtain ⟨rfl, rfl⟩ := h
    exact ⟨rfl, rfl, rfl⟩
  | _ => simp [Op.isReadChannel] at hop

/-- A call outside the read channel, made in two states that agree on the write
queue and the write pending handle, leaves two states that agree on them, and
gives the same write-poll outcome. -/
theorem step_write_side (op : Op) (s t s1 : Sys) (e : Event)
    (hop : op.isReadChannel = false)
    (hq : s.adapter.write_queue = t.adapter.write_queue)
    (hp : s.adapter.pending_write = t.adapter.pending_write)
    (h : step op s = some (s1, e)) :
    ∃ t1 e1, step op t = some (t1, e1) ∧
      s1.adapter.write_queue = t1.adapter.write_queue ∧
      s1.adapter.pending_write = t1.adapter.pending_write ∧
      e.writePoll = e1.writePoll := by
  cases op with
  | queue_read t => simp [Op.isReadChannel] at hop
  | read_adapter p => simp [Op.isReadChannel] at hop
  | get_pending_read => simp [Op.isReadChannel] at hop
  | write_adapter p =>
    cases hs : s.adapter.write_queue with
    | nil =>
      have ht : t.adapter.write_queue = [] := by rw [← hq, hs]
      rw [step_write_nil s p hs] at h
      simp only [Option.some.injEq, Prod.mk.injEq] at h
      obtain ⟨rfl, rfl⟩ := h
      exact ⟨_, _, step_write_nil t p ht, hq, hp, by simp [Event.writePoll, Event.outcome]⟩
    | cons x rest =>
      have ht : t.adapter.write_queue = x :: rest := by rw [← hq, hs]
      rw [step_write_cons s p x rest hs] at h
      simp only [Option.some.injEq, Prod.mk.injEq] at h
      obtain ⟨rfl, rfl⟩ := h
      exact ⟨_, _, step_write_cons t p x rest ht, rfl, rfl, rfl⟩
  | queue_write w =>
    simp only [step, Option.some.injEq, Prod.mk.injEq] at h
    obtain ⟨rfl, rfl⟩ := h
    exact ⟨_, _, rfl, by simp [PortAdapter.queue_write, hq], hp, rfl⟩
  | set_expected_txn_count n =>
    simp only [step, Option.some.injEq, Prod.mk.injEq] at h
    obtain ⟨rfl, rfl⟩ := h
    exact ⟨_, _, rfl, hq, hp, rfl⟩
  | get_expected_txn_count =>
    simp only [step, Option.some.injEq, Prod.mk.injEq] at h
    obtain ⟨rfl, rfl⟩ := h
    exact ⟨_, _, rfl, hq, hp, rfl⟩
  | get_pending_write =>
    simp only [step, Option.some.injEq, Prod.mk.injEq] at h
    obtain ⟨rfl, rfl⟩ := h
    exact ⟨_, _, rfl, hq, hp, rfl⟩

theorem run_dropReadChannel (ops : List Op) (s t : Sys)
    (hq : s.adapter.write_queue = t.adapter.write_queue)
    (hp : s.adapter.pending_write = t.adapter.pending_write) :
    ∃ s1 evs t1 evs1, run ops s = some (s1, evs) ∧
      run (dropReadChannel ops) t = some (t1, evs1) ∧
      writePollResults evs = writePollResults evs1 ∧
      s1.adapter.write_queue = t1.adapter.write_queue ∧
      s1.adapter.pending_write = t1.adapter.pending_write := by
  induction ops generalizing s t with
  | nil => exact ⟨s, [], t, [], rfl, rfl, rfl, hq, hp⟩
  | cons op rest ih =>
    obtain ⟨s2, e, h1⟩ := step_total op s
    cases hop : op.isReadChannel with
    | true =>
      obtain ⟨f1, f2, f3⟩ := step_read_channel_frame op s s2 e hop h1
      obtain ⟨s1, evs, t1, evs1, r1, r2, r3, r4, r5⟩ :=
        ih s2 t (by rw [f1, hq]) (by rw [f2, hp])
      refine ⟨s1, e :: evs, t1, evs1, run_cons _ _ _ _ _ _ _ h1 r1, ?_, ?_, r4, r5⟩
      · simpa [dropReadChannel, hop] using r2
      · simp only [writePollResults, filterMap_cons_toList, f3] at r3 ⊢
        simpa using r3
    | false =>
      obtain ⟨t2, e1, g1, g2, g3, g4⟩ := step_write_side op s t s2 e hop hq hp h1
      obtain ⟨s1, evs, t1, evs1, r1, r2, r3, r4, r5⟩ := ih s2 t2 g2 g3
      refine ⟨s1, e :: evs, t1, e1 :: evs1, run_cons _ _ _ _ _ _ _ h1 r1, ?_, ?_, r4, r5⟩
      · have hd : dropReadChannel (op :: rest) = op :: dropReadChannel rest := by
          simp [dropReadChannel, hop]
        rw [hd]
        exact run_cons _ _ _ _ _ _ _ g1 r2
      · simp only [writePollResults, filterMap_cons_toList, g4] at r3 ⊢
        rw [r3]

/-- C6. Channel independence. `queue_read` and `read_adapter` (whatever it
returns) leave the write queue and the write pending handle unchanged;
`queue_write` and `write_adapter` leave the read queue and the read pending
handle unchanged. Consequently, for every call sequence from every state, the
outcomes of the write polls (return value and delivered transaction) are the
same as in the sequence with all read-channel calls deleted, and so are the
final write queue and write pending handle. -/
theorem C6_channel_independence (a : PortAdapter) (mem : Mem) (t : DpiTxn) (p : Slot)
    (ops : List Op) (s : Sys) :
    ((a.queue_read t).write_queue = a.write_queue ∧
      (a.queue_read t).pending_write = a.pending_write) ∧
    (∃ b a1 mem1, a.read_adapter mem p = some (b, a1, mem1) ∧
      a1.write_queue = a.write_queue ∧ a1.pending_write = a.pending_write) ∧
    ((a.queue_write t).read_queue = a.read_queue ∧
      (a.queue_write t).pending_read = a.pending_read) ∧
    (∃ b a1 mem1, a.write_adapter mem p = some (b, a1, mem1) ∧
      a1.read_queue = a.read_queue ∧ a1.pending_read = a.pending_read) ∧
    (∃ s1 evs s2 evs2, run ops s = some (s1, evs) ∧
      run (dropReadChannel ops) s = some (s2, evs2) ∧
      writePollResults evs = writePollResults evs2 ∧
      s1.adapter.write_queue = s2.adapter.write_queue ∧
      s1.adapter.pending_write = s2.adapter.pending_write) := by
  refine ⟨⟨rfl, rfl⟩, ?_, ⟨rfl, rfl⟩, ?_, run_dropReadChannel ops s s rfl rfl⟩
  · cases hq : a.read_queue with
    | nil => exact ⟨_, _, _, read_adapter_nil a mem p hq, rfl, rfl⟩
    | cons x rest => exact ⟨_, _, _, read_adapter_cons a mem p x rest hq, rfl, rfl⟩
  · cases hq : a.write_queue with
    | nil => exact ⟨_, _, _, write_adapter_nil a mem p hq, rfl, rfl⟩
    | cons x rest => exact ⟨_, _, _, write_adapter_cons a mem p x rest hq, rfl, rfl⟩

/-! ## C8: the pending handles -/

/-- After one call, `pending_read` is the supplied slot if the call was a
successful read poll and is unchanged otherwise; the same for `pending_write`. -/
theorem step_pending (op : Op) (s : Sys) :
    ∃ s1 e, step op s = some (s1, e) ∧
      s1.adapter.pending_read = e.readSlot.or s.adapter.pending_read ∧
      s1.adapter.pending_write = e.writeSlot.or s.adapter.pending_write := by
  cases op with
  | read_adapter p =>
    cases hq : s.adapter.read_queue with
    | nil => exact ⟨_, _, step_read_nil s p hq, by simp [Event.readSlot], by simp [Event.writeSlot]⟩
    | cons x rest =>
      exact ⟨_, _, step_read_cons s p x rest hq, by simp [Event.readSlot],
        by simp [Event.writeSlot]⟩
  | write_adapter p =>
    cases hq : s.adapter.write_queue with
    | nil => exact ⟨_, _, step_write_nil s p hq, by simp [Event.readSlot], by simp [Event.writeSlot]⟩
    | cons x rest =>
      exact ⟨_, _, step_write_cons s p x rest hq, by simp [Event.readSlot],
        by simp [Event.writeSlot]⟩
  | _ =>
    exact ⟨_, _, rfl,
      by simp [Event.readSlot, PortAdapter.queue_read, PortAdapter.queue_write,
        PortAdapter.set_expected_txn_count],
      by simp [Event.writeSlot, PortAdapter.queue_read, PortAdapter.queue_write,
        PortAdapter.set_expected_txn_count]⟩

theorem getLast?_toList_append_or (o init : Option Slot) (l : List Slot) :
    (o.toList ++ l).getLast?.or init = l.getLast?.or (o.or init) := by
  cases o with
  | none => simp
  | some p =>
    cases l with
    | nil => simp
    | cons y ys =>
      have h : ((y :: ys).getLast?).isSome = true := by
        simp [List.getLast?_isSome]
      obtain ⟨z, hz⟩ := Option.isSome_iff_exists.mp h
      simp [List.getLast?_cons_cons, hz]

theorem run_pending (ops : List Op) (s s1 : Sys) (evs : List Event)
    (h : run ops s = some (s1, evs)) :
    s1.adapter.pending_read = (lastReadSlot evs).or s.adapter.pending_read ∧
    s1.adapter.pending_write = (lastWriteSlot evs).or s.adapter.pending_write := by
  induction ops generalizing s evs with
  | nil =>
    simp only [run, Option.some.injEq, Prod.mk.injEq] at h
    obtain ⟨rfl, rfl⟩ := h
    simp [lastReadSlot, lastWriteSlot]
  | cons op rest ih =>
    obtain ⟨s2, e, es, h1, h2, rfl⟩ := run_cons_inv op rest s s1 evs h
    obtain ⟨s3, e3, k1, k2, k3⟩ := step_pending op s
    rw [h1] at k1
    simp only [Option.some.injEq, Prod.mk.injEq] at k1
    obtain ⟨rfl, rfl⟩ := k1
    obtain ⟨i1, i2⟩ := ih s2 es h2
    simp only [lastReadSlot, lastWriteSlot, filterMap_cons_toList] at i1 i2 ⊢
    rw [getLast?_toList_append_or, getLast?_toList_append_or, ← k2, ← k3]
    exact ⟨i1, i2⟩

/-- C8. Pending handle accessors. Every call sequence on a fresh adapter
returns; afterwards `get_pending_read` returns null if no read poll has
succeeded and otherwise the output slot supplied to the most recent successful
read poll, and the accessor call leaves adapter and memory as they were. The
same for `get_pending_write`. In every state, one call sets `pending_read` to
the supplied slot if it is a successful read poll and leaves it unchanged if it
is anything else (failed poll, enqueue, count call, any write-channel call);
the same for `pending_write`. -/
theorem C8_pending_accessor (ops : List Op) (mem : Mem) (op : Op) (s0 : Sys) :
    (∃ s evs, run ops (fresh mem) = some (s, evs) ∧
      s.adapter.get_pending_read = lastReadSlot evs ∧
      s.adapter.get_pending_write = lastWriteSlot evs ∧
      run (ops ++ [Op.get_pending_read]) (fresh mem) =
        some (s, evs ++ [⟨Op.get_pending_read, Ret.ptr (lastReadSlot evs), none⟩]) ∧
      run (ops ++ [Op.get_pending_write]) (fresh mem) =
        some (s, evs ++ [⟨Op.get_pending_write, Ret.ptr (lastWriteSlot evs), none⟩])) ∧
    (∃ s1 e, step op s0 = some (s1, e) ∧
      s1.adapter.get_pending_read = e.readSlot.or s0.adapter.get_pending_read ∧
      s1.adapter.get_pending_write = e.writeSlot.or s0.adapter.get_pending_write) := by
  refine ⟨?_, step_pending op s0⟩
  obtain ⟨s, evs, h⟩ := run_total ops (fresh mem)
  obtain ⟨hr, hw⟩ := run_pending ops (fresh mem) s evs h
  have hr1 : s.adapter.get_pending_read = lastReadSlot evs := by
    simpa [fresh, PortAdapter.ctor, PortAdapter.get_pending_read] using hr
  have hw1 : s.adapter.get_pending_write = lastWriteSlot evs := by
    simpa [fresh, PortAdapter.ctor, PortAdapter.get_pending_write] using hw
  refine ⟨s, evs, h, hr1, hw1, ?_, ?_⟩
  · refine run_append _ _ _ _ _ _ _ h ?_
    simp [run, step, hr1]
  · refine run_append _ _ _ _ _ _ _ h ?_
    simp [run, step, hw1]

/-! ## C9: the value behind a pending handle -/

/-- A call writes to slot `q` only if it is a successful poll given `q`. -/
theorem step_mem (op : Op) (s s1 : Sys) (e : Event) (q : Slot)
    (h : step op s = some (s1, e)) (hr : e.readSlot ≠ some q) (hw : e.writeSlot ≠ some q) :
    s1.mem q = s.mem q := by
  cases op with
  | read_adapter p =>
    cases hq : s.adapter.read_queue with
    | nil =>
      rw [step_read_nil s p hq] at h
      simp only [Option.some.injEq, Prod.mk.injEq] at h
      rw [← h.1]
    | cons x rest =>
      rw [step_read_cons s p x rest hq] at h
      simp only [Option.some.injEq, Prod.mk.injEq] at h
      obtain ⟨rfl, rfl⟩ := h
      have hne : q ≠ p := by
        intro hqp
        exact hr (by simp [Event.readSlot, hqp])
      exact Mem.write_other s.mem p q x hne
  | write_adapter p =>
    cases hq : s.adapter.write_queue with
    | nil =>
      rw [step_write_nil s p hq] at h
      simp only [Option.some.injEq, Prod.mk.injEq] at h
      rw [← h.1]
    | cons x rest =>
      rw [step_write_cons s p x rest hq] at h
      simp only [Option.some.injEq, Prod.mk.injEq] at h
      obtain ⟨rfl, rfl⟩ := h
      have hne : q ≠ p := by
        intro hqp
        exact hw (by simp [Event.writeSlot, hqp])
      exact Mem.write_other s.mem p q x hne
  | _ =>
    simp only [step, Option.some.injEq, Prod.mk.injEq] at h
    rw [← h.1]

theorem run_mem (ops : List Op) (s s1 : Sys) (evs : List Event) (q : Slot)
    (h : run ops s = some (s1, evs))
    (hr : ∀ e ∈ evs, e.readSlot ≠ some q) (hw : ∀ e ∈ evs, e.writeSlot ≠ some q) :
    s1.mem q = s.mem q := by
  induction ops generalizing s evs with
  | nil =>
    simp only [run, Option.some.injEq, Prod.mk.injEq] at h
    rw [← h.1]
  | cons op rest ih =>
    obtain ⟨s2, e, es, h1, h2, rfl⟩ := run_cons_inv op rest s s1 evs h
    have k1 := step_mem op s s2 e q h1 (hr e (List.mem_cons_self _ _))
      (hw e (List.mem_cons_self _ _))
    have k2 := ih s2 es h2 (fun e1 he1 => hr e1 (List.mem_cons_of_mem _ he1))
      (fun e1 he1 => hw e1 (List.mem_cons_of_mem _ he1))
    rw [k2, k1]

/-- A run whose events are `es1 ++ es2` is a run producing `es1` followed by a
run producing `es2`. -/
theorem run_split_events (ops : List Op) (s s1 : Sys) (es1 es2 : List Event)
    (h : run ops s = some (s1, es1 ++ es2)) :
    ∃ s2, run (ops.take es1.length) s = some (s2, es1) ∧
      run (ops.drop es1.length) s2 = some (s1, es2) := by
  induction ops generalizing s es1 with
  | nil =>
    simp only [run, Option.some.injEq, Prod.mk.injEq] at h
    obtain ⟨rfl, h2⟩ := h
    have h3 := List.append_eq_nil.mp h2.symm
    obtain ⟨rfl, rfl⟩ := h3
    exact ⟨s, rfl, rfl⟩
  | cons op rest ih =>
    cases es1 with
    | nil => exact ⟨s, rfl, by simpa using h⟩
    | cons e1 es1 =>
      obtain ⟨s3, e, es, h1, h2, h3⟩ := run_cons_inv op rest s s1 _ h
      simp only [List.cons_append, List.cons.injEq] at h3
      obtain ⟨rfl, rfl⟩ := h3
      obtain ⟨s2, k1, k2⟩ := ih s3 es1 h2
      refine ⟨s2, ?_, ?_⟩
      · simpa using run_cons op _ s s3 s2 e1 es1 h1 k1
      · simpa using k2

/-- The state right after a successful write poll given slot `p`. -/
theorem step_writeSlot_inv (op : Op) (s s1 : Sys) (e : Event) (p : Slot)
    (h : step op s = some (s1, e)) (hp : e.writeSlot = some p) :
    s1.adapter.pending_write = some p ∧ e.out = some (s1.mem p) ∧
      e.writeDelivered = some (s1.mem p) := by
  cases op with
  | write_adapter q =>
    cases hq : s.adapter.write_queue with
    | nil =>
      rw [step_write_nil s q hq] at h
      simp only [Option.some.injEq, Prod.mk.injEq] at h
      obtain ⟨rfl, rfl⟩ := h
      simp [Event.writeSlot] at hp
    | cons x rest =>
      rw [step_write_cons s q x rest hq] at h
      simp only [Option.some.injEq, Prod.mk.injEq] at h
      obtain ⟨rfl, rfl⟩ := h
      simp only [Event.writeSlot, Option.some.injEq] at hp
      subst hp
      simp [Event.writeDelivered, Mem.write]
  | read_adapter q =>
    cases hq : s.adapter.read_queue with
    | nil =>
      rw [step_read_nil s q hq] at h
      simp only [Option.some.injEq, Prod.mk.injEq] at h
      obtain ⟨rfl, rfl⟩ := h
      simp [Event.writeSlot] at hp
    | cons x rest =>
      rw [step_read_cons s q x rest hq] at h
      simp only [Option.some.injEq, Prod.mk.injEq] at h
      obtain ⟨rfl, rfl⟩ := h
      simp [Event.writeSlot] at hp
  | _ =>
    simp only [step, Option.some.injEq, Prod.mk.injEq] at h
    obtain ⟨rfl, rfl⟩ := h
    simp [Event.writeSlot] at hp

/-- The state right after a successful read poll given slot `p`. -/
theorem step_readSlot_inv (op : Op) (s s1 : Sys) (e : Event) (p : Slot)
    (h : step op s = some (s1, e)) (hp : e.readSlot = some p) :
    s1.adapter.pending_read = some p ∧ e.out = some (s1.mem p) ∧
      e.readDelivered = some (s1.mem p) := by
  cases op with
  | read_adapter q =>
    cases hq : s.adapter.read_queue with
    | nil =>
      rw [step_read_nil s q hq] at h
      simp only [Option.some.injEq, Prod.mk.injEq] at h
      obtain ⟨rfl, rfl⟩ := h
      simp [Event.readSlot] at hp
    | cons x rest =>
      rw [step_read_cons s q x rest hq] at h
      simp only [Option.some.injEq, Prod.mk.injEq] at h
      obtain ⟨rfl, rfl⟩ := h
      simp only [Event.readSlot, Option.some.injEq] at hp
      subst hp
      simp [Event.readDelivered, Mem.write]
  | write_adapter q =>
    cases hq : s.adapter.write_queue with
    | nil =>
      rw [step_write_nil s q hq] at h
      simp only [Option.some.injEq, Prod.mk.injEq] at h
      obtain ⟨rfl, rfl⟩ := h
      simp [Event.readSlot] at hp
    | cons x rest =>
      rw [step_write_cons s q x rest hq] at h
      simp only [Option.some.injEq, Prod.mk.injEq] at h
      obtain ⟨rfl, rfl⟩ := h
      simp [Event.readSlot] at hp
  | _ =>
    simp only [step, Option.some.injEq, Prod.mk.injEq] at h
    obtain ⟨rfl, rfl⟩ := h
    simp [Event.readSlot] at hp

/-- An event that is not a successful write poll delivers no write. -/
theorem writeDelivered_of_writeSlot_none (e : Event) (h : e.writeSlot = none) :
    e.writeDelivered = none := by
  unfold Event.writeSlot at h
  unfold Event.writeDelivered
  split <;> simp_all

/-- An event that is not a successful read poll delivers no read. -/
theorem readDelivered_of_readSlot_none (e : Event) (h : e.readSlot = none) :
    e.readDelivered = none := by
  unfold Event.readSlot at h
  unfold Event.readDelivered
  split <;> simp_all

theorem filterMap_eq_nil_of_forall {α β : Type} (f : α → Option β) (l : List α)
    (h : ∀ x ∈ l, f x = none) : l.filterMap f = [] := by
  induction l with
  | nil => rfl
  | cons x xs ih =>
    rw [filterMap_cons_toList, h x (List.mem_cons_self _ _),
      ih (fun y hy => h y (List.mem_cons_of_mem _ hy))]
    rfl

/-- From any state: if `e` is a successful write poll given slot `p`, and after
it no write poll succeeds and no successful read poll is given `p`, then the
slot behind `pending_write` still holds what `e` delivered. -/
theorem run_pending_write_value (ops : List Op) (s0 s : Sys) (es1 es2 : List Event)
    (e : Event) (p : Slot)
    (hrun : run ops s0 = some (s, es1 ++ e :: es2))
    (he : e.writeSlot = some p)
    (hlast : ∀ e1 ∈ es2, e1.writeSlot = none)
    (hslot : ∀ e1 ∈ es2, e1.readSlot ≠ some p) :
    pendingWriteValue s = e.out ∧ lastWriteDelivered (es1 ++ e :: es2) = e.out := by
  obtain ⟨s1, _, k2⟩ := run_split_events ops s0 s es1 (e :: es2) hrun
  cases hd : ops.drop es1.length with
  | nil =>
    rw [hd] at k2
    simp [run] at k2
  | cons op rest =>
    rw [hd] at k2
    obtain ⟨s2, e2, es, h1, h2, h3⟩ := run_cons_inv op rest s1 s _ k2
    simp only [List.cons.injEq] at h3
    obtain ⟨rfl, rfl⟩ := h3
    obtain ⟨g1, g2, g3⟩ := step_writeSlot_inv op s1 s2 e p h1 he
    have hp := (run_pending rest s2 s es2 h2).2
    have hnone : lastWriteSlot es2 = none := by
      simp [lastWriteSlot, filterMap_eq_nil_of_forall Event.writeSlot es2 hlast]
    rw [hnone, Option.none_or, g1] at hp
    have hm := run_mem rest s2 s es2 p h2 hslot
      (fun e1 he1 => by rw [hlast e1 he1]; exact Option.noConfusion)
    constructor
    · simp [pendingWriteValue, PortAdapter.get_pending_write, hp, hm, g2]
    · have hd2 : deliveredWrites es2 = [] :=
        filterMap_eq_nil_of_forall Event.writeDelivered es2
          (fun e1 he1 => writeDelivered_of_writeSlot_none e1 (hlast e1 he1))
      have hd3 : deliveredWrites (es1 ++ e :: es2) = deliveredWrites es1 ++ [s2.mem p] := by
        simp only [deliveredWrites, List.filterMap_append, filterMap_cons_toList, g3] at hd2 ⊢
        simp [hd2]
      simp [lastWriteDelivered, hd3, g2]

/-- From any state: if `e` is a successful read poll given slot `p`, and after
it no read poll succeeds and no successful write poll is given `p`, then the
slot behind `pending_read` still holds what `e` delivered. -/
theorem run_pending_read_value (ops : List Op) (s0 s : Sys) (es1 es2 : List Event)
    (e : Event) (p : Slot)
    (hrun : run ops s0 = some (s, es1 ++ e :: es2))
    (he : e.readSlot = some p)
    (hlast : ∀ e1 ∈ es2, e1.readSlot = none)
    (hslot : ∀ e1 ∈ es2, e1.writeSlot ≠ some p) :
    pendingReadValue s = e.out ∧ lastReadDelivered (es1 ++ e :: es2) = e.out := by
  obtain ⟨s1, _, k2⟩ := run_split_events ops s0 s es1 (e :: es2) hrun
  cases hd : ops.drop es1.length with
  | nil =>
    rw [hd] at k2
    simp [run] at k2
  | cons op rest =>
    rw [hd] at k2
    obtain ⟨s2, e2, es, h1, h2, h3⟩ := run_cons_inv op rest s1 s _ k2
    simp only [List.cons.injEq] at h3
    obtain ⟨rfl, rfl⟩ := h3
    obtain ⟨g1, g2, g3⟩ := step_readSlot_inv op s1 s2 e p h1 he
    have hp := (run_pending rest s2 s es2 h2).1
    have hnone : lastReadSlot es2 = none := by
      simp [lastReadSlot, filterMap_eq_nil_of_forall Event.readSlot es2 hlast]
    rw [hnone, Option.none_or, g1] at hp
    have hm := run_mem rest s2 s es2 p h2
      (fun e1 he1 => by rw [hlast e1 he1]; exact Option.noConfusion) hslot
    constructor
    · simp [pendingReadValue, PortAdapter.get_pending_read, hp, hm, g2]
    · have hd2 : deliveredReads es2 = [] :=
        filterMap_eq_nil_of_forall Event.readDelivered es2
          (fun e1 he1 => readDelivered_of_readSlot_none e1 (hlast e1 he1))
      have hd3 : deliveredReads (es1 ++ e :: es2) = deliveredReads es1 ++ [s2.mem p] := by
        simp only [deliveredReads, List.filterMap_append, filterMap_cons_toList, g3] at hd2 ⊢
        simp [hd2]
      simp [lastReadDelivered, hd3, g2]

/-- C9, as stated, fails. On a fresh adapter queue the write `txnA` and the read
`txnB`, poll the write into slot 0 and then the read into the same slot 0 (as
`main` does with `retrieved_txn`). Both polls succeed, the most recent
successful write poll delivered `txnA`, and the transaction read through
`get_pending_write()` is the read transaction `txnB`. -/
theorem C9_shared_slot_counterexample :
    ∃ s evs, run sharedSlotOps (fresh mem0) = some (s, evs) ∧
      lastWriteDelivered evs = some txnA ∧
      s.adapter.get_pending_write = some 0 ∧
      pendingWriteValue s = some txnB ∧
      pendingWriteValue s ≠ lastWriteDelivered evs := by
  obtain ⟨s, evs, h⟩ := run_total sharedSlotOps (fresh mem0)
  have key : (run sharedSlotOps (fresh mem0)).map
      (fun r => (lastWriteDelivered r.2, r.1.adapter.get_pending_write, pendingWriteValue r.1)) =
      some (some txnA, some 0, some txnB) := by decide
  rw [h] at key
  simp only [Option.map_some', Option.some.injEq, Prod.mk.injEq] at key
  obtain ⟨k1, k2, k3⟩ := key
  refine ⟨s, evs, h, k1, k2, k3, ?_⟩
  rw [k1, k3]
  decide

/-- C9, amended. In every call sequence on a fresh adapter, let `e` be the most
recent successful write poll and `p` the slot it was given. If no successful
read poll after `e` was given `p`, the transaction read through
`get_pending_write()` is the one `e` delivered. Symmetrically: if `e` is the
most recent successful read poll, given `p`, and no successful write poll after
it was given `p`, the transaction read through `get_pending_read()` is the one
`e` delivered. -/
theorem C9_pending_value_own_channel (ops : List Op) (mem : Mem) (s : Sys)
    (es1 es2 : List Event) (e : Event) (p : Slot)
    (hrun : run ops (fresh mem) = some (s, es1 ++ e :: es2)) :
    (e.writeSlot = some p → (∀ e1 ∈ es2, e1.writeSlot = none) →
      (∀ e1 ∈ es2, e1.readSlot ≠ some p) →
      pendingWriteValue s = lastWriteDelivered (es1 ++ e :: es2) ∧
        lastWriteDelivered (es1 ++ e :: es2) = e.out) ∧
    (e.readSlot = some p → (∀ e1 ∈ es2, e1.readSlot = none) →
      (∀ e1 ∈ es2, e1.writeSlot ≠ some p) →
      pendingReadValue s = lastReadDelivered (es1 ++ e :: es2) ∧
        lastReadDelivered (es1 ++ e :: es2) = e.out) := by
  constructor
  · intro he hlast hslot
    obtain ⟨h1, h2⟩ := run_pending_write_value ops (fresh mem) s es1 es2 e p hrun he hlast hslot
    exact ⟨by rw [h1, h2], h2⟩
  · intro he hlast hslot
    obtain ⟨h1, h2⟩ := run_pending_read_value ops (fresh mem) s es1 es2 e p hrun he hlast hslot
    exact ⟨by rw [h1, h2], h2⟩

theorem C9_pending_value_own_channel_witness :
    (pendingWriteValue separateSlotFinal =
        lastWriteDelivered (separateSlotEnqueues ++ separateSlotWritePoll :: [separateSlotReadPoll]) ∧
      lastWriteDelivered (separateSlotEnqueues ++ separateSlotWritePoll :: [separateSlotReadPoll]) =
        some txnA) ∧
    (pendingReadValue separateSlotFinal =
        lastReadDelivered ((separateSlotEnqueues ++ [separateSlotWritePoll]) ++
          separateSlotReadPoll :: []) ∧
      lastReadDelivered ((separateSlotEnqueues ++ [separateSlotWritePoll]) ++
          separateSlotReadPoll :: []) = some txnB) :=
  ⟨(C9_pending_value_own_channel separateSlotOps mem0 separateSlotFinal separateSlotEnqueues
      [separateSlotReadPoll] separateSlotWritePoll 0 rfl).1 rfl (by decide) (by decide),
   (C9_pending_value_own_channel separateSlotOps mem0 separateSlotFinal
      (separateSlotEnqueues ++ [separateSlotWritePoll]) [] separateSlotReadPoll 1 rfl).2 rfl
      (by decide) (by decide)⟩

/-! ## C11, C12: the two scenarios of the specification -/

/-- C11. Scenario. On a fresh adapter enqueue reads with addresses 0x10 then
0x20 and one write with address 0x30 (any data, any port bit), then poll the
write channel twice and the read channel three times (any output slots). The
first write poll returns `true` and delivers the 0x30 transaction, the second
returns `false`; the first two read polls return `true` and deliver the 0x10
transaction and then the 0x20 transaction, the third returns `false`. -/
theorem C11_scenario (d1 d2 d3 : Fin 65536) (b1 b2 b3 : Bool) (mem : Mem)
    (p1 p2 p3 p4 p5 : Slot) :
    ∃ s evs,
      run [Op.queue_read ⟨d1, 0x10, b1⟩, Op.queue_read ⟨d2, 0x20, b2⟩,
           Op.queue_write ⟨d3, 0x30, b3⟩,
           Op.write_adapter p1, Op.write_adapter p2,
           Op.read_adapter p3, Op.read_adapter p4, Op.read_adapter p5] (fresh mem) =
        some (s, evs) ∧
      (evs.drop 3).map Event.outcome =
        [(Ret.bool true, some ⟨d3, 0x30, b3⟩), (Ret.bool false, none),
         (Ret.bool true, some ⟨d1, 0x10, b1⟩), (Ret.bool true, some ⟨d2, 0x20, b2⟩),
         (Ret.bool false, none)] := by
  refine ⟨_, _, rfl, ?_⟩
  simp [Event.outcome, Mem.write]

/-- C12. Fresh adapter. On a newly constructed adapter, with no enqueue, the
first read poll and the first write poll return `false` and change nothing,
both pending handles are null and `get_expected_txn_count` returns 0; the same
holds after `set_expected_txn_count 0`. -/
theorem C12_fresh_adapter (mem : Mem) (p q : Slot) :
    (PortAdapter.ctor.read_adapter mem p = some (false, PortAdapter.ctor, mem) ∧
      PortAdapter.ctor.write_adapter mem q = some (false, PortAdapter.ctor, mem) ∧
      PortAdapter.ctor.get_pending_read = none ∧
      PortAdapter.ctor.get_pending_write = none ∧
      PortAdapter.ctor.get_expected_txn_count = 0) ∧
    ((PortAdapter.ctor.set_expected_txn_count 0).read_adapter mem p =
        some (false, PortAdapter.ctor.set_expected_txn_count 0, mem) ∧
      (PortAdapter.ctor.set_expected_txn_count 0).write_adapter mem q =
        some (false, PortAdapter.ctor.set_expected_txn_count 0, mem) ∧
      (PortAdapter.ctor.set_expected_txn_count 0).get_pending_read = none ∧
      (PortAdapter.ctor.set_expected_txn_count 0).get_pending_write = none ∧
      (PortAdapter.ctor.set_expected_txn_count 0).get_expected_txn_count = 0) ∧
    run [Op.set_expected_txn_count 0, Op.read_adapter p, Op.write_adapter q,
         Op.get_pending_read, Op.get_pending_write, Op.get_expected_txn_count] (fresh mem) =
      some (fresh mem,
        [⟨Op.set_expected_txn_count 0, Ret.unit, none⟩,
         ⟨Op.read_adapter p, Ret.bool false, some (mem p)⟩,
         ⟨Op.write_adapter q, Ret.bool false, some (mem q)⟩,
         ⟨Op.get_pending_read, Ret.ptr none, none⟩,
         ⟨Op.get_pending_write, Ret.ptr none, none⟩,
         ⟨Op.get_expected_txn_count, Ret.int 0, none⟩]) := by
  refine ⟨⟨?_, ?_, rfl, rfl, rfl⟩, ⟨?_, ?_, rfl, rfl, rfl⟩, rfl⟩
  · exact read_adapter_nil _ mem p rfl
  · exact write_adapter_nil _ mem q rfl
  · exact read_adapter_nil _ mem p rfl
  · exact write_adapter_nil _ mem q rfl

/-! ## C13: the expected count is only stored -/

/-- C13. Expected count is an oracle only. `set_expected_txn_count n` leaves
both queues and both pending handles unchanged. No enqueue and no poll
(whatever it returns) changes the stored count. No enqueue and no poll depends
on it: made after `set_expected_txn_count n`, each gives the result it gives
without the setter, with the count set to `n` in the resulting adapter. In
particular a poll on a non-empty queue succeeds for every `n`, zero and
negative values included. -/
theorem C13_count_is_oracle (a : PortAdapter) (n : Int) (mem : Mem) (t : DpiTxn) (p : Slot) :
    ((a.set_expected_txn_count n).read_queue = a.read_queue ∧
      (a.set_expected_txn_count n).write_queue = a.write_queue ∧
      (a.set_expected_txn_count n).pending_read = a.pending_read ∧
      (a.set_expected_txn_count n).pending_write = a.pending_write) ∧
    ((a.queue_read t).get_expected_txn_count = a.get_expected_txn_count ∧
      (a.queue_write t).get_expected_txn_count = a.get_expected_txn_count ∧
      (∃ b a1 mem1, a.read_adapter mem p = some (b, a1, mem1) ∧
        a1.get_expected_txn_count = a.get_expected_txn_count) ∧
      (∃ b a1 mem1, a.write_adapter mem p = some (b, a1, mem1) ∧
        a1.get_expected_txn_count = a.get_expected_txn_count)) ∧
    ((a.set_expected_txn_count n).queue_read t = (a.queue_read t).set_expected_txn_count n ∧
      (a.set_expected_txn_count n).queue_write t = (a.queue_write t).set_expected_txn_count n ∧
      (a.set_expected_txn_count n).read_adapter mem p =
        (a.read_adapter mem p).map (fun r => (r.1, r.2.1.set_expected_txn_count n, r.2.2)) ∧
      (a.set_expected_txn_count n).write_adapter mem p =
        (a.write_adapter mem p).map (fun r => (r.1, r.2.1.set_expected_txn_count n, r.2.2))) ∧
    (∀ h T, a.read_queue = h :: T →
      ∃ a1 mem1, (a.set_expected_txn_count n).read_adapter mem p = some (true, a1, mem1) ∧
        mem1 p = h ∧ a1.read_queue = T) ∧
    (∀ h T, a.write_queue = h :: T →
      ∃ a1 mem1, (a.set_expected_txn_count n).write_adapter mem p = some (true, a1, mem1) ∧
        mem1 p = h ∧ a1.write_queue = T) := by
  refine ⟨⟨rfl, rfl, rfl, rfl⟩, ⟨rfl, rfl, ?_, ?_⟩, ⟨rfl, rfl, ?_, ?_⟩, ?_, ?_⟩
  · cases hq : a.read_queue with
    | nil => exact ⟨_, _, _, read_adapter_nil a mem p hq, rfl⟩
    | cons x rest => exact ⟨_, _, _, read_adapter_cons a mem p x rest hq, rfl⟩
  · cases hq : a.write_queue with
    | nil => exact ⟨_, _, _, write_adapter_nil a mem p hq, rfl⟩
    | cons x rest => exact ⟨_, _, _, write_adapter_cons a mem p x rest hq, rfl⟩
  · cases hq : a.read_queue with
    | nil =>
      rw [read_adapter_nil a mem p hq, read_adapter_nil (a.set_expected_txn_count n) mem p hq]
      rfl
    | cons x rest =>
      rw [read_adapter_cons a mem p x rest hq,
        read_adapter_cons (a.set_expected_txn_count n) mem p x rest hq]
      rfl
  · cases hq : a.write_queue with
    | nil =>
      rw [write_adapter_nil a mem p hq, write_adapter_nil (a.set_expected_txn_count n) mem p hq]
      rfl
    | cons x rest =>
      rw [write_adapter_cons a mem p x rest hq,
        write_adapter_cons (a.set_expected_txn_count n) mem p x rest hq]
      rfl
  · intro h T hq
    exact ⟨_, _, read_adapter_cons (a.set_expected_txn_count n) mem p h T hq,
      Mem.write_same mem p h, rfl⟩
  · intro h T hq
    exact ⟨_, _, write_adapter_cons (a.set_expected_txn_count n) mem p h T hq,
      Mem.write_same mem p h, rfl⟩

theorem C13_count_is_oracle_witness :
    (∃ a1 mem1, (adapterAB.set_expected_txn_count (-1)).read_adapter mem0 5 =
        some (true, a1, mem1) ∧ mem1 5 = txnA ∧ a1.read_queue = [txnB]) ∧
    (∃ a1 mem1, (adapterAB.set_expected_txn_count (-1)).write_adapter mem0 5 =
        some (true, a1, mem1) ∧ mem1 5 = txnA ∧ a1.write_queue = [txnB]) :=
  ⟨(C13_count_is_oracle adapterAB (-1) mem0 txnC 5).2.2.2.1 txnA [txnB] rfl,
   (C13_count_is_oracle adapterAB (-1) mem0 txnC 5).2.2.2.2 txnA [txnB] rfl⟩

/-! ## C15: no undefined call -/

/-- C15. Totality. In `read_adapter` and `write_adapter`, `front()` and
`erase(begin())` are defined whenever the `empty()` test in front of them is
false, so neither poll is ever undefined; every single call and every call
sequence returns, in every state and for every argument. -/
theorem C15_totality (a : PortAdapter) (mem : Mem) (p : Slot) (op : Op) (s : Sys)
    (ops : List Op) :
    (a.read_queue.isEmpty = false →
      (front a.read_queue).isSome = true ∧ (erase_begin a.read_queue).isSome = true) ∧
    (a.write_queue.isEmpty = false →
      (front a.write_queue).isSome = true ∧ (erase_begin a.write_queue).isSome = true) ∧
    (a.read_adapter mem p).isSome = true ∧
    (a.write_adapter mem p).isSome = true ∧
    (step op s).isSome = true ∧
    (run ops s).isSome = true := by
  refine ⟨?_, ?_, ?_, ?_, ?_, ?_⟩
  · intro h
    cases hq : a.read_queue with
    | nil => simp [hq] at h
    | cons x rest => simp [front, erase_begin]
  · intro h
    cases hq : a.write_queue with
    | nil => simp [hq] at h
    | cons x rest => simp [front, erase_begin]
  · cases hq : a.read_queue with
    | nil => simp [read_adapter_nil a mem p hq]
    | cons x rest => simp [read_adapter_cons a mem p x rest hq]
  · cases hq : a.write_queue with
    | nil => simp [write_adapter_nil a mem p hq]
    | cons x rest => simp [write_adapter_cons a mem p x rest hq]
  · obtain ⟨s1, e, h⟩ := step_total op s
    simp [h]
  · obtain ⟨s1, evs, h⟩ := run_total ops s
    simp [h]

theorem C15_totality_witness :
    ((front adapterAB.read_queue).isSome = true ∧
      (erase_begin adapterAB.read_queue).isSome = true) ∧
    ((front adapterAB.write_queue).isSome = true ∧
      (erase_begin adapterAB.write_queue).isSome = true) :=
  ⟨(C15_totality adapterAB mem0 5 Op.get_pending_read ⟨adapterAB, mem0⟩ []).1 rfl,
   (C15_totality adapterAB mem0 5 Op.get_pending_read ⟨adapterAB, mem0⟩ []).2.1 rfl⟩

/-! ## C18: calls of different channels commute -/

theorem Mem.write_comm (mem : Mem) (p q : Slot) (x y : DpiTxn) (h : p ≠ q) :
    (mem.write p x).write q y = (mem.write q y).write p x := by
  funext r
  by_cases hp : r = p
  · have hq : r ≠ q := fun hrq => h (hp ▸ hrq)
    simp [Mem.write, hp, h]
  · by_cases hq : r = q
    · simp [Mem.write, hq, Ne.symm h]
    · simp [Mem.write, hp, hq]

theorem run_two (o1 o2 : Op) (s s1 s2 : Sys) (e1 e2 : Event)
    (h1 : step o1 s = some (s1, e1)) (h2 : step o2 s1 = some (s2, e2)) :
    run [o1, o2] s = some (s2, [e1, e2]) :=
  run_cons o1 [o2] s s1 s2 e1 [e2] h1 (run_cons o2 [] s1 s2 s2 e2 [] h2 rfl)

/-- A read poll and `queue_write`, in either order: same final state, same events. -/
theorem read_poll_queue_write_comm (s : Sys) (p : Slot) (w : DpiTxn) :
    ∃ s1 e1 e2, run [Op.read_adapter p, Op.queue_write w] s = some (s1, [e1, e2]) ∧
      run [Op.queue_write w, Op.read_adapter p] s = some (s1, [e2, e1]) := by
  cases hr : s.adapter.read_queue with
  | nil =>
    exact ⟨_, _, _, run_two _ _ _ _ _ _ _ (step_read_nil s p hr) rfl,
      run_two _ _ _ _ _ _ _ rfl
        (step_read_nil ⟨s.adapter.queue_write w, s.mem⟩ p hr)⟩
  | cons x rest =>
    exact ⟨_, _, _, run_two _ _ _ _ _ _ _ (step_read_cons s p x rest hr) rfl,
      run_two _ _ _ _ _ _ _ rfl
        (step_read_cons ⟨s.adapter.queue_write w, s.mem⟩ p x rest hr)⟩

/-- A read poll and a write poll given different slots, in either order: same
final state, same events. -/
theorem read_poll_write_poll_comm (s : Sys) (p q : Slot) (hpq : p ≠ q) :
    ∃ s1 e1 e2, run [Op.read_adapter p, Op.write_adapter q] s = some (s1, [e1, e2]) ∧
      run [Op.write_adapter q, Op.read_adapter p] s = some (s1, [e2, e1]) := by
  have hqp : q ≠ p := Ne.symm hpq
  cases hr : s.adapter.read_queue with
  | nil =>
    cases hw : s.adapter.write_queue with
    | nil =>
      exact ⟨_, _, _, run_two _ _ _ _ _ _ _ (step_read_nil s p hr) (step_write_nil s q hw),
        run_two _ _ _ _ _ _ _ (step_write_nil s q hw) (step_read_nil s p hr)⟩
    | cons y wrest =>
      have hB := run_two _ _ _ _ _ _ _ (step_write_cons s q y wrest hw)
        (step_read_nil ⟨{ s.adapter with write_queue := wrest, pending_write := some q },
          s.mem.write q y⟩ p hr)
      have hA := run_two _ _ _ _ _ _ _ (step_read_nil s p hr) (step_write_cons s q y wrest hw)
      simp only [Mem.write_other s.mem q p y hpq] at hB
      exact ⟨_, _, _, hA, hB⟩
  | cons x rrest =>
    cases hw : s.adapter.write_queue with
    | nil =>
      have hA := run_two _ _ _ _ _ _ _ (step_read_cons s p x rrest hr)
        (step_write_nil ⟨{ s.adapter with read_queue := rrest, pending_read := some p },
          s.mem.write p x⟩ q hw)
      have hB := run_two _ _ _ _ _ _ _ (step_write_nil s q hw) (step_read_cons s p x rrest hr)
      simp only [Mem.write_other s.mem p q x hqp] at hA
      exact ⟨_, _, _, hA, hB⟩
    | cons y wrest =>
      have hA := run_two _ _ _ _ _ _ _ (step_read_cons s p x rrest hr)
        (step_write_cons ⟨{ s.adapter with read_queue := rrest, pending_read := some p },
          s.mem.write p x⟩ q y wrest hw)
      have hB := run_two _ _ _ _ _ _ _ (step_write_cons s q y wrest hw)
        (step_read_cons ⟨{ s.adapter with write_queue := wrest, pending_write := some q },
          s.mem.write q y⟩ p x rrest hr)
      simp only [Mem.write_comm s.mem p q x y hpq] at hA
      exact ⟨_, _, _, hA, hB⟩

/-- C18. Cross-channel calls commute. `queue_read r` then `queue_write w` gives
the same adapter as `queue_write w` then `queue_read r`. A read poll followed by
`queue_write`, and a read poll followed by a write poll given a different
slot, give the same final adapter, the same memory and the same return values
and delivered transactions as the two calls in the opposite order. -/
theorem C18_cross_channel_commute (a : PortAdapter) (r w : DpiTxn) (s : Sys) (p q : Slot)
    (hpq : p ≠ q) :
    (a.queue_read r).queue_write w = (a.queue_write w).queue_read r ∧
    (∃ s1 e1 e2, run [Op.read_adapter p, Op.queue_write w] s = some (s1, [e1, e2]) ∧
      run [Op.queue_write w, Op.read_adapter p] s = some (s1, [e2, e1])) ∧
    (∃ s1 e1 e2, run [Op.read_adapter p, Op.write_adapter q] s = some (s1, [e1, e2]) ∧
      run [Op.write_adapter q, Op.read_adapter p] s = some (s1, [e2, e1])) :=
  ⟨rfl, read_poll_queue_write_comm s p w, read_poll_write_poll_comm s p q hpq⟩

theorem C18_cross_channel_commute_witness :
    (adapterAB.queue_read txnC).queue_write txnC = (adapterAB.queue_write txnC).queue_read txnC ∧
    (∃ s1 e1 e2,
      run [Op.read_adapter 0, Op.queue_write txnC] ⟨adapterAB, mem0⟩ = some (s1, [e1, e2]) ∧
      run [Op.queue_write txnC, Op.read_adapter 0] ⟨adapterAB, mem0⟩ = some (s1, [e2, e1])) ∧
    (∃ s1 e1 e2,
      run [Op.read_adapter 0, Op.write_adapter 1] ⟨adapterAB, mem0⟩ = some (s1, [e1, e2]) ∧
      run [Op.write_adapter 1, Op.read_adapter 0] ⟨adapterAB, mem0⟩ = some (s1, [e2, e1])) :=
  C18_cross_channel_commute adapterAB txnC txnC ⟨adapterAB, mem0⟩ 0 1 (by decide)

/-! ## C19: enqueue, then poll -/

/-- C19. Enqueue-then-poll round trip. When the read queue is empty,
`queue_read t` followed by `read_adapter out` returns `true`, leaves `t` in
`out`, and leaves the read queue empty again, with the write queue and the
expected count as they were. When the read queue is `h :: T`, the next read
poll delivers `h` whether or not `queue_read t` was called before it. The same
for the write channel. -/
theorem C19_enqueue_poll_round_trip (a : PortAdapter) (mem : Mem) (t : DpiTxn) (out : Slot) :
    (a.read_queue = [] →
      ∃ a1 mem1, (a.queue_read t).read_adapter mem out = some (true, a1, mem1) ∧
        mem1 out = t ∧ a1.read_queue = [] ∧ a1.write_queue = a.write_queue ∧
        a1.get_expected_txn_count = a.get_expected_txn_count) ∧
    (∀ h T, a.read_queue = h :: T →
      ∃ a1 mem1 a2 mem2, a.read_adapter mem out = some (true, a1, mem1) ∧
        (a.queue_read t).read_adapter mem out = some (true, a2, mem2) ∧
        mem1 out = h ∧ mem2 out = h) ∧
    (a.write_queue = [] →
      ∃ a1 mem1, (a.queue_write t).write_adapter mem out = some (true, a1, mem1) ∧
        mem1 out = t ∧ a1.write_queue = [] ∧ a1.read_queue = a.read_queue ∧
        a1.get_expected_txn_count = a.get_expected_txn_count) ∧
    (∀ h T, a.write_queue = h :: T →
      ∃ a1 mem1 a2 mem2, a.write_adapter mem out = some (true, a1, mem1) ∧
        (a.queue_write t).write_adapter mem out = some (true, a2, mem2) ∧
        mem1 out = h ∧ mem2 out = h) := by
  refine ⟨?_, ?_, ?_, ?_⟩
  · intro hq
    have h1 : (a.queue_read t).read_queue = t :: [] := by
      simp [PortAdapter.queue_read, push_back, hq]
    exact ⟨_, _, read_adapter_cons (a.queue_read t) mem out t [] h1,
      Mem.write_same mem out t, rfl, rfl, rfl⟩
  · intro h T hq
    have h1 : (a.queue_read t).read_queue = h :: (T ++ [t]) := by
      simp [PortAdapter.queue_read, push_back, hq]
    exact ⟨_, _, _, _, read_adapter_cons a mem out h T hq,
      read_adapter_cons (a.queue_read t) mem out h (T ++ [t]) h1,
      Mem.write_same mem out h, Mem.write_same mem out h⟩
  · intro hq
    have h1 : (a.queue_write t).write_queue = t :: [] := by
      simp [PortAdapter.queue_write, push_back, hq]
    exact ⟨_, _, write_adapter_cons (a.queue_write t) mem out t [] h1,
      Mem.write_same mem out t, rfl, rfl, rfl⟩
  · intro h T hq
    have h1 : (a.queue_write t).write_queue = h :: (T ++ [t]) := by
      simp [PortAdapter.queue_write, push_back, hq]
    exact ⟨_, _, _, _, write_adapter_cons a mem out h T hq,
      write_adapter_cons (a.queue_write t) mem out h (T ++ [t]) h1,
      Mem.write_same mem out h, Mem.write_same mem out h⟩

theorem C19_enqueue_poll_round_trip_witness :
    (∃ a1 mem1, (PortAdapter.ctor.queue_read txnC).read_adapter mem0 5 = some (true, a1, mem1) ∧
        mem1 5 = txnC ∧ a1.read_queue = [] ∧ a1.write_queue = PortAdapter.ctor.write_queue ∧
        a1.get_expected_txn_count = PortAdapter.ctor.get_expected_txn_count) ∧
    (∃ a1 mem1 a2 mem2, adapterAB.read_adapter mem0 5 = some (true, a1, mem1) ∧
        (adapterAB.queue_read txnC).read_adapter mem0 5 = some (true, a2, mem2) ∧
        mem1 5 = txnA ∧ mem2 5 = txnA) ∧
    (∃ a1 mem1, (PortAdapter.ctor.queue_write txnC).write_adapter mem0 5 =
        some (true, a1, mem1) ∧
        mem1 5 = txnC ∧ a1.write_queue = [] ∧ a1.read_queue = PortAdapter.ctor.read_queue ∧
        a1.get_expected_txn_count = PortAdapter.ctor.get_expected_txn_count) ∧
    (∃ a1 mem1 a2 mem2, adapterAB.write_adapter mem0 5 = some (true, a1, mem1) ∧
        (adapterAB.queue_write txnC).write_adapter mem0 5 = some (true, a2, mem2) ∧
        mem1 5 = txnA ∧ mem2 5 = txnA) :=
  ⟨(C19_enqueue_poll_round_trip PortAdapter.ctor mem0 txnC 5).1 rfl,
   (C19_enqueue_poll_round_trip adapterAB mem0 txnC 5).2.1 txnA [txnB] rfl,
   (C19_enqueue_poll_round_trip PortAdapter.ctor mem0 txnC 5).2.2.1 rfl,
   (C19_enqueue_poll_round_trip adapterAB mem0 txnC 5).2.2.2 txnA [txnB] rfl⟩

/-! ## C14: the bridge -/

theorem getLast?_toList_append_getD {α : Type} (o : Option α) (l : List α) (init : α) :
    (o.toList ++ l).getLast?.getD init = l.getLast?.getD (o.getD init) := by
  cases o with
  | none => simp
  | some p =>
    cases l with
    | nil => simp
    | cons y ys =>
      have h : ((y :: ys).getLast?).isSome = true := by
        simp [List.getLast?_isSome]
      obtain ⟨z, hz⟩ := Option.isSome_iff_exists.mp h
      simp [List.getLast?_cons_cons, hz]

/-- One bridge call returns, and leaves the count at its argument if it is
`test_set_expected_txn_count`, unchanged otherwise. -/
theorem apply_bridge_call_count (c : BridgeCall) (g : PortAdapter) (mem : Mem) :
    ∃ g1 mem1, apply_bridge_call c g mem = some (g1, mem1) ∧
      g1.expected_txn_count = c.countSet.getD g.expected_txn_count := by
  cases c with
  | maybe_read txn =>
    cases hq : g.read_queue with
    | nil => exact ⟨g, mem, by simp [apply_bridge_call, maybe_read_nil g mem txn hq], rfl⟩
    | cons x rest =>
      exact ⟨{ g with read_queue := rest, pending_read := some txn }, mem.write txn x,
        by simp [apply_bridge_call, maybe_read_cons g mem txn x rest hq], rfl⟩
  | maybe_write txn =>
    cases hq : g.write_queue with
    | nil => exact ⟨g, mem, by simp [apply_bridge_call, maybe_write_nil g mem txn hq], rfl⟩
    | cons x rest =>
      exact ⟨{ g with write_queue := rest, pending_write := some txn }, mem.write txn x,
        by simp [apply_bridge_call, maybe_write_cons g mem txn x rest hq], rfl⟩
  | _ => exact ⟨_, _, rfl, rfl⟩

theorem bridge_calls_count (cs : List BridgeCall) (g : PortAdapter) (mem : Mem) :
    ∃ g1 mem1, bridge_calls cs g mem = some (g1, mem1) ∧
      g1.expected_txn_count =
        (cs.filterMap BridgeCall.countSet).getLast?.getD g.expected_txn_count := by
  induction cs generalizing g mem with
  | nil => exact ⟨g, mem, rfl, rfl⟩
  | cons c rest ih =>
    obtain ⟨g1, mem1, h1, h2⟩ := apply_bridge_call_count c g mem
    obtain ⟨g2, mem2, h3, h4⟩ := ih g1 mem1
    refine ⟨g2, mem2, by simp [bridge_calls, h1, h3], ?_⟩
    rw [h4, h2, filterMap_cons_toList, getLast?_toList_append_getD]

/-- C14. Bridge return value. In every state of the global adapter `maybe_read`
returns 1 or 0: it returns 1 exactly when the read queue is non-empty, and then
`txn` holds the head of the queue and the head is removed; it returns 0
exactly when the read queue is empty, and then nothing changes. The same for
`maybe_write` and the write queue. After any sequence of bridge calls on the
initial global adapter, the bridge's `get_expected_txn_count` returns the value
last passed to `test_set_expected_txn_count`, 0 if it was never called. -/
theorem C14_bridge_return_value (g : PortAdapter) (mem : Mem) (txn : Slot)
    (cs : List BridgeCall) :
    (∃ r g1 mem1, maybe_read g mem txn = some (r, g1, mem1) ∧ (r = 1 ∨ r = 0) ∧
      (r = 1 ↔ g.read_queue ≠ []) ∧ (r = 0 ↔ g.read_queue = []) ∧
      (∀ h T, g.read_queue = h :: T → r = 1 ∧ mem1 txn = h ∧ g1.read_queue = T) ∧
      (g.read_queue = [] → g1 = g ∧ mem1 = mem)) ∧
    (∃ r g1 mem1, maybe_write g mem txn = some (r, g1, mem1) ∧ (r = 1 ∨ r = 0) ∧
      (r = 1 ↔ g.write_queue ≠ []) ∧ (r = 0 ↔ g.write_queue = []) ∧
      (∀ h T, g.write_queue = h :: T → r = 1 ∧ mem1 txn = h ∧ g1.write_queue = T) ∧
      (g.write_queue = [] → g1 = g ∧ mem1 = mem)) ∧
    (∃ g1 mem1, bridge_calls cs g_port_adapter mem = some (g1, mem1) ∧
      get_expected_txn_count g1 = lastSetCount cs) := by
  refine ⟨?_, ?_, ?_⟩
  · cases hq : g.read_queue with
    | nil =>
      refine ⟨0, g, mem, maybe_read_nil g mem txn hq, Or.inr rfl, ?_, ?_, ?_, ?_⟩
      · simp
      · simp
      · intro h T hc
        exact absurd hc (by simp)
      · intro _
        exact ⟨rfl, rfl⟩
    | cons x rest =>
      refine ⟨1, _, _, maybe_read_cons g mem txn x rest hq, Or.inl rfl, ?_, ?_, ?_, ?_⟩
      · simp
      · simp
      · intro h T hc
        simp only [List.cons.injEq] at hc
        obtain ⟨rfl, rfl⟩ := hc
        exact ⟨rfl, Mem.write_same mem txn x, rfl⟩
      · intro hc
        exact absurd hc (by simp)
  · cases hq : g.write_queue with
    | nil =>
      refine ⟨0, g, mem, maybe_write_nil g mem txn hq, Or.inr rfl, ?_, ?_, ?_, ?_⟩
      · simp
      · simp
      · intro h T hc
        exact absurd hc (by simp)
      · intro _
        exact ⟨rfl, rfl⟩
    | cons x rest =>
      refine ⟨1, _, _, maybe_write_cons g mem txn x rest hq, Or.inl rfl, ?_, ?_, ?_, ?_⟩
      · simp
      · simp
      · intro h T hc
        simp only [List.cons.injEq] at hc
        obtain ⟨rfl, rfl⟩ := hc
        exact ⟨rfl, Mem.write_same mem txn x, rfl⟩
      · intro hc
        exact absurd hc (by simp)
  · obtain ⟨g1, mem1, h1, h2⟩ := bridge_calls_count cs g_port_adapter mem
    exact ⟨g1, mem1, h1, h2⟩

/-! ## C17: the address range of the driver -/

/-- C17. Driver address range. For every non-negative `int` `r` returned by
`rand()`, `random_address` returns `r % 0x8001` as a 16-bit value: the
conversion to `uint16_t` changes nothing, and the result is between 0x0000 and
0x8000 inclusive. Both bounds are reached: `r = 0` gives 0x0000 and
`r = 0x8000` gives 0x8000. -/
theorem C17_random_address_range (r : Int) (hr : 0 ≤ r) :
    ((random_address r).val : Int) = r % 0x8001 ∧
    (random_address r).val ≤ 0x8000 ∧
    random_address 0 = 0x0000 ∧
    random_address 0x8000 = 0x8000 := by
  have h := Int.tmod_eq_emod hr (show (0 : Int) ≤ 0x8001 by decide)
  refine ⟨?_, ?_, by decide, by decide⟩
  · simp only [random_address, static_cast_uint16, h, Fin.ofNat]
    omega
  · simp only [random_address, static_cast_uint16, h, Fin.ofNat]
    omega

theorem C17_random_address_range_witness :
    ((random_address 100000).val : Int) = 100000 % 0x8001 ∧
    (random_address 100000).val ≤ 0x8000 ∧
    random_address 0 = 0x0000 ∧
    random_address 0x8000 = 0x8000 :=
  C17_random_address_range 100000 (by decide)

theorem C14_bridge_return_value_witness :
    (∃ r g1 mem1, maybe_read adapterAB mem0 5 = some (r, g1, mem1) ∧
      r = 1 ∧ mem1 5 = txnA ∧ g1.read_queue = [txnB]) ∧
    (∃ r g1 mem1, maybe_write PortAdapter.ctor mem0 5 = some (r, g1, mem1) ∧
      g1 = PortAdapter.ctor ∧ mem1 = mem0) :=
  ⟨(C14_bridge_return_value adapterAB mem0 5 []).1.elim fun r hr =>
      hr.elim fun g1 hg => hg.elim fun mem1 h =>
        ⟨r, g1, mem1, h.1, h.2.2.2.2.1 txnA [txnB] rfl⟩,
   (C14_bridge_return_value PortAdapter.ctor mem0 5 []).2.1.elim fun r hr =>
      hr.elim fun g1 hg => hg.elim fun mem1 h =>
        ⟨r, g1, mem1, h.1, h.2.2.2.2.2 rfl⟩⟩

/-! ## C16: the test driver -/

theorem enqueue_body_spec (rand : Nat → Nat) (st : EnqueueState) :
    ∃ r w : Nat, r + w = 1 ∧
      (enqueue_body rand st).reads_queued = st.reads_queued + r ∧
      (enqueue_body rand st).writes_queued = st.writes_queued + w ∧
      (enqueue_body rand st).g.read_queue.length = st.g.read_queue.length + r ∧
      (enqueue_body rand st).g.write_queue.length = st.g.write_queue.length + w ∧
      (enqueue_body rand st).g.expected_txn_count = st.g.expected_txn_count := by
  by_cases hw : ((rand st.calls : Nat) : Int).tmod 2 = 1
  · refine ⟨0, 1, rfl, ?_, ?_, ?_, ?_, ?_⟩ <;>
      simp [enqueue_body, hw, test_queue_write, PortAdapter.queue_write, push_back]
  · refine ⟨1, 0, rfl, ?_, ?_, ?_, ?_, ?_⟩ <;>
      simp [enqueue_body, hw, test_queue_read, PortAdapter.queue_read, push_back]

theorem enqueue_loop_spec (rand : Nat → Nat) (n : Nat) (st : EnqueueState) :
    ∃ r w : Nat, r + w = n ∧
      (enqueue_loop rand n st).reads_queued = st.reads_queued + r ∧
      (enqueue_loop rand n st).writes_queued = st.writes_queued + w ∧
      (enqueue_loop rand n st).g.read_queue.length = st.g.read_queue.length + r ∧
      (enqueue_loop rand n st).g.write_queue.length = st.g.write_queue.length + w ∧
      (enqueue_loop rand n st).g.expected_txn_count = st.g.expected_txn_count := by
  induction n generalizing st with
  | zero => exact ⟨0, 0, rfl, by simp [enqueue_loop], by simp [enqueue_loop], rfl, rfl, rfl⟩
  | succ k ih =>
    obtain ⟨r1, w1, h0, h1, h2, h3, h4, h5⟩ := enqueue_body_spec rand st
    obtain ⟨r2, w2, k0, k1, k2, k3, k4, k5⟩ := ih (enqueue_body rand st)
    refine ⟨r1 + r2, w1 + w2, by omega, ?_, ?_, ?_, ?_, ?_⟩
    · simp only [enqueue_loop, k1, h1]
      push_cast
      ring
    · simp only [enqueue_loop, k2, h2]
      push_cast
      ring
    · simp only [enqueue_loop, k3, h3]
      omega
    · simp only [enqueue_loop, k4, h4]
      omega
    · simp only [enqueue_loop, k5, h5]

theorem drain_writes_count (fuel : Nat) (g : PortAdapter) (mem : Mem) (p : Slot) (cnt : Nat)
    (res : Nat × PortAdapter × Mem) (h : drain_writes fuel g mem p cnt = some res) :
    res.2.1.expected_txn_count = g.expected_txn_count := by
  induction fuel generalizing g mem cnt with
  | zero => simp [drain_writes] at h
  | succ n ih =>
    cases hq : g.write_queue with
    | nil =>
      simp only [drain_writes, maybe_write_nil g mem p hq] at h
      simp only [ne_eq, not_true_eq_false, if_false, Option.some.injEq] at h
      rw [← h]
    | cons x rest =>
      simp only [drain_writes, maybe_write_cons g mem p x rest hq] at h
      simp only [ne_eq, one_ne_zero, not_false_eq_true, if_true] at h
      have hrec := ih _ _ _ h
      exact hrec

theorem drain_reads_count (fuel : Nat) (g : PortAdapter) (mem : Mem) (p : Slot) (cnt : Nat)
    (res : Nat × PortAdapter × Mem) (h : drain_reads fuel g mem p cnt = some res) :
    res.2.1.expected_txn_count = g.expected_txn_count := by
  induction fuel generalizing g mem cnt with
  | zero => simp [drain_reads] at h
  | succ n ih =>
    cases hq : g.read_queue with
    | nil =>
      simp only [drain_reads, maybe_read_nil g mem p hq] at h
      simp only [ne_eq, not_true_eq_false, if_false, Option.some.injEq] at h
      rw [← h]
    | cons x rest =>
      simp only [drain_reads, maybe_read_cons g mem p x rest hq] at h
      simp only [ne_eq, one_ne_zero, not_false_eq_true, if_true] at h
      have hrec := ih _ _ _ h
      exact hrec

/-- C16. Driver sets the true total. For every stream of `rand()` values (so
for every `num_operations` and every sequence of read/write choices) and every
bound above 50 on the calls of a drain loop, `main` returns: `num_operations`
is between 1 and 50, it is the value passed to `test_set_expected_txn_count`
and the value the bridge's `get_expected_txn_count` returns at the end, it
equals `reads_queued + writes_queued` after the enqueue loop, which equals
`writes_retrieved + reads_retrieved` after the drain loops, each channel's
counters agree, and `main` returns 0. -/
theorem C16_driver_total (rand : Nat → Nat) (fuel : Nat) (mem : Mem) (retrieved_txn : Slot)
    (hfuel : 50 < fuel) :
    ∃ res, test_main rand fuel mem retrieved_txn = some res ∧
      1 ≤ res.num_operations ∧ res.num_operations ≤ 50 ∧
      get_expected_txn_count res.g = res.num_operations ∧
      res.num_operations = res.reads_queued + res.writes_queued ∧
      res.reads_queued + res.writes_queued = res.writes_retrieved + res.reads_retrieved ∧
      res.reads_queued = res.reads_retrieved ∧
      res.writes_queued = res.writes_retrieved ∧
      res.exit_code = 0 := by
  have hno : ((rand 0 : Nat) : Int).tmod 50 + 1 = ((rand 0 % 50 + 1 : Nat) : Int) := by
    rw [Int.tmod_eq_emod (Int.ofNat_nonneg _) (by decide)]
    push_cast
    rfl
  obtain ⟨r, w, h0, h1, h2, h3, h4, h5⟩ := enqueue_loop_spec rand (rand 0 % 50 + 1)
    ⟨test_set_expected_txn_count g_port_adapter ((rand 0 % 50 + 1 : Nat) : Int), 0, 0, 1⟩
  generalize hst : enqueue_loop rand (rand 0 % 50 + 1)
    ⟨test_set_expected_txn_count g_port_adapter ((rand 0 % 50 + 1 : Nat) : Int), 0, 0, 1⟩ = st
    at h1 h2 h3 h4 h5
  simp only [test_set_expected_txn_count, g_port_adapter, PortAdapter.set_expected_txn_count,
    PortAdapter.ctor, List.length_nil, Nat.zero_add, Int.zero_add] at h1 h2 h3 h4 h5
  have hN : rand 0 % 50 + 1 ≤ 50 := by omega
  have hlw : st.g.write_queue.length < fuel := by omega
  obtain ⟨g1, mem1, d1, d2, d3⟩ := drain_writes_spec fuel st.g mem retrieved_txn 0 hlw
  have hlr : g1.read_queue.length < fuel := by rw [d3]; omega
  obtain ⟨g2, mem2, d4, d5, d6⟩ := drain_reads_spec fuel g1 mem1 retrieved_txn 0 hlr
  have c1 := drain_writes_count _ _ _ _ _ _ d1
  have c2 := drain_reads_count _ _ _ _ _ _ d4
  simp only at c1 c2
  have e1 : st.reads_queued = ((0 + g1.read_queue.length : Nat) : Int) := by
    rw [h1, d3, h3]; simp
  have e2 : st.writes_queued = ((0 + st.g.write_queue.length : Nat) : Int) := by
    rw [h2, h4]; simp
  refine ⟨{ exit_code := 0
            num_operations := ((rand 0 % 50 + 1 : Nat) : Int)
            reads_queued := st.reads_queued
            writes_queued := st.writes_queued
            reads_retrieved := ((0 + g1.read_queue.length : Nat) : Int)
            writes_retrieved := ((0 + st.g.write_queue.length : Nat) : Int)
            g := g2 }, ?_, ?_, ?_, ?_, ?_, ?_, ?_, ?_, ?_⟩
  · simp only [test_main, hno, Int.toNat_ofNat, hst, d1, d4]
    have f1 : st.reads_queued = (g1.read_queue.length : Int) := by simpa using e1
    have f2 : st.writes_queued = (st.g.write_queue.length : Int) := by simpa using e2
    simp [f1, f2]
  · simp only; omega
  · simp only; omega
  · simp only [get_expected_txn_count, PortAdapter.get_expected_txn_count, c2, c1, h5]
  · simp only [h1, h2]; omega
  · simp only [← e1, ← e2]; ring
  · exact e1
  · exact e2
  · rfl

theorem C16_driver_total_witness :
    ∃ res, test_main rand0 51 mem0 0 = some res ∧
      1 ≤ res.num_operations ∧ res.num_operations ≤ 50 ∧
      get_expected_txn_count res.g = res.num_operations ∧
      res.num_operations = res.reads_queued + res.writes_queued ∧
      res.reads_queued + res.writes_queued = res.writes_retrieved + res.reads_retrieved ∧
      res.reads_queued = res.reads_retrieved ∧
      res.writes_queued = res.writes_retrieved ∧
      res.exit_code = 0 :=
  C16_driver_total rand0 51 mem0 0 (by decide)
